import Mathlib

/-!
# Incident-state reconciliation of the service-status monitor

Shallow embedding of `src/netlify/functions/monitor.js` (the scheduled monitor
handler): the key-value persistence helpers, the dedupe-key derivation, the
single-incident reconcile step (non-statuspage services), the multi-incident
reconcile cycle (statuspage services), the per-service loop of one poll cycle,
the normalizers (with `parseStatuspageSummary` of `src/lib/status-utils.js`)
and the configured services, followed by theorems about them.

Modelling conventions.

* A nullable JavaScript string is an `Option String`; JavaScript truthiness of
  such a value is `truthy` (`null`, `undefined` and `''` are falsy).
* The durable key-value store is split into its three disjoint key families:
  `state:<key>` (the persisted incident record of the service under study, kept
  in the normal form that `getPersistedState` returns), `notify:<key>` (last
  send attempt, epoch milliseconds) and `sig:<key>` (last signature).
* `setPersistedState` followed by `getPersistedState` is `readBack`: a field
  that the written object does not carry is read back as its default.
* The clock (`Date.now()`) is one integer per reconcile step; `Date.parse`,
  `toISOString` and `toLocaleString` are built-ins of the platform and are
  taken as parameters (`Env`).
* Store keys are compared exactly, as the in-memory and blob backends do.
* The warm-instance map `__MONITOR_LAST__` is written but never read by a
  decision, so it is left out.
-/

namespace ServiceStatus

/-! ## JavaScript values -/

/-- JavaScript truthiness of a nullable string. -/
def truthy : Option String → Bool
  | some s => s != ""
  | none => false

/-- The expression `a || b` on nullable strings. -/
def orElse (a b : Option String) : Option String :=
  if truthy a then a else b

/-- The expression `a || null`. -/
def orNull (a : Option String) : Option String :=
  if truthy a then a else none

/-- The expression `a || ''` (also the text a template literal gets from it). -/
def orEmpty (a : Option String) : String :=
  match a with
  | some s => s
  | none => ""

/-- Text of a JavaScript number produced by `Date.parse` inside a template
literal: decimal digits for a finite value, `NaN` otherwise. -/
def numText : Option Int → String
  | some n => toString n
  | none => "NaN"

/-- Lower-casing of a string (`String.prototype.toLowerCase`) on its ASCII
letters: `A`..`Z` become `a`..`z`, every other character is kept. It is the
JavaScript function on the strings `isAscii` accepts; a letter outside ASCII
that JavaScript would lower (such as `É`) is kept here. -/
def toLowerCase (s : String) : String :=
  String.mk (s.data.map Char.toLower)

/-- The code points `String.prototype.trim` removes: the ECMAScript `WhiteSpace`
(tab, vertical tab, form feed, U+FEFF and the space separators U+0020, U+00A0,
U+1680, U+2000..U+200A, U+202F, U+205F, U+3000) and `LineTerminator`
(line feed, carriage return, U+2028, U+2029) productions. -/
def isJsWhitespace (c : Char) : Bool :=
  decide (c.toNat = 0x09) || decide (c.toNat = 0x0A) || decide (c.toNat = 0x0B) ||
  decide (c.toNat = 0x0C) || decide (c.toNat = 0x0D) || decide (c.toNat = 0x20) ||
  decide (c.toNat = 0xA0) || decide (c.toNat = 0x1680) ||
  (decide (0x2000 ≤ c.toNat) && decide (c.toNat ≤ 0x200A)) ||
  decide (c.toNat = 0x2028) || decide (c.toNat = 0x2029) || decide (c.toNat = 0x202F) ||
  decide (c.toNat = 0x205F) || decide (c.toNat = 0x3000) || decide (c.toNat = 0xFEFF)

/-- Whitespace trimming at both ends (`String.prototype.trim`). -/
def jsTrim (s : String) : String :=
  String.mk ((s.data.dropWhile isJsWhitespace).reverse.dropWhile isJsWhitespace).reverse

/-- Platform built-ins the handler calls. `dateParse s = none` stands for `NaN`. -/
structure Env where
  /-- The function `Date.parse`. -/
  dateParse : String → Option Int
  /-- The value of `new Date().toISOString()` at the given clock reading. -/
  toISOString : Int → String
  /-- The value of `new Date(s).toLocaleString()`. -/
  toLocaleString : String → String
  /-- The value of `new Date().toLocaleString()` at the given clock reading. -/
  nowLocaleString : Int → String
  /-- An ISO timestamp is never the empty string. -/
  iso_nonempty : ∀ t, toISOString t ≠ ""

/-- Process configuration: `RESET_UNKNOWN_MINUTES` (default 60). -/
structure Config where
  /-- Minutes after which a stuck incident is reset. -/
  resetUnknownMinutes : Int := 60

/-! ## Data model -/

/-- A configured service (an entry of the `services` array). -/
structure Service where
  /-- Display name. -/
  name : String
  /-- Either `local` or `statuspage`. -/
  type : String
  /-- Address polled for the observation. -/
  url : String
  /-- Public status page. -/
  statusUrl : Option String
deriving DecidableEq, Repr

/-- The normalised observation `current` of one poll. -/
structure Observation where
  /-- One of `incident`, `operational`, or anything else (unknown). -/
  state : String
  /-- Severity, `critical` or `minor`. -/
  severity : Option String := none
  /-- Human-readable summary. -/
  title : Option String := none
  /-- Incident onset as reported upstream. -/
  startedAt : Option String := none
  /-- Upstream identifier. -/
  incidentId : Option String := none
deriving DecidableEq, Repr

/-- The record returned by `getPersistedState`. -/
structure PersistedState where
  /-- Last reconciled state. -/
  state : String := "unknown"
  /-- Best-known onset. -/
  startedAt : Option String := none
  /-- Identity of the tracked incident. -/
  startKey : Option String := none
  /-- Upstream identifier of the tracked incident. -/
  incidentId : Option String := none
  /-- Last time the service was seen non-incident, epoch milliseconds. -/
  lastNonIncidentTs : Int := 0
  /-- Onset of the incident whose start was last notified. -/
  lastNotifiedStartAt : Option String := none
  /-- Onset of the incident whose resolve was last notified. -/
  lastNotifiedResolveAt : Option String := none
  /-- Identity of the incident whose start was last notified. -/
  lastNotifiedStartKey : Option String := none
  /-- Identity of the incident whose resolve was last notified. -/
  lastNotifiedResolveKey : Option String := none
  /-- Multi-incident: start keys already notified. -/
  notifiedStartKeys : List String := []
  /-- Multi-incident: start keys whose resolve was notified. -/
  notifiedResolveKeys : List String := []
  /-- Multi-incident: onset cached per start key. -/
  startKeyToStartedAt : List (String × String) := []
  /-- Multi-incident: title cached per start key. -/
  startKeyToTitle : List (String × String) := []
deriving DecidableEq, Repr

/-- The default record (`getPersistedState` on an absent or corrupt value). -/
def defaultState : PersistedState := {}

/-- What `getPersistedState` makes of a stored object: every nullable field
goes through `|| null`, the state through `|| 'unknown'`. -/
def readBack (p : PersistedState) : PersistedState :=
  { state := if p.state = "" then "unknown" else p.state
    startedAt := orNull p.startedAt
    startKey := orNull p.startKey
    incidentId := orNull p.incidentId
    lastNonIncidentTs := p.lastNonIncidentTs
    lastNotifiedStartAt := orNull p.lastNotifiedStartAt
    lastNotifiedResolveAt := orNull p.lastNotifiedResolveAt
    lastNotifiedStartKey := orNull p.lastNotifiedStartKey
    lastNotifiedResolveKey := orNull p.lastNotifiedResolveKey
    notifiedStartKeys := p.notifiedStartKeys
    notifiedResolveKeys := p.notifiedResolveKeys
    startKeyToStartedAt := p.startKeyToStartedAt
    startKeyToTitle := p.startKeyToTitle }

/-- The durable store as seen by one service. -/
structure Store where
  /-- The value under `state:<baseKey>`, as `getPersistedState` returns it. -/
  persisted : PersistedState
  /-- The function `getLastNotifiedTs` (0 when nothing is stored). -/
  notifyTs : String → Int
  /-- The function `getLastSignature` (empty when nothing is stored). -/
  sig : String → String

/-- A store with no persisted record and no suppression record. -/
def freshStore : Store :=
  { persisted := defaultState, notifyTs := fun _ => 0, sig := fun _ => "" }

/-- The function `setPersistedState` (its value is read back normalised). -/
def setPersistedState (st : Store) (value : PersistedState) : Store :=
  { st with persisted := readBack value }

/-- The function `setLastNotifiedTs`. -/
def setLastNotifiedTs (st : Store) (key : String) (ts : Int) : Store :=
  { st with notifyTs := fun k => if k = key then ts else st.notifyTs k }

/-- The function `setLastSignature`. -/
def setLastSignature (st : Store) (key : String) (sigVal : String) : Store :=
  { st with sig := fun k => if k = key then sigVal else st.sig k }

/-- Direction of a notification. -/
inductive Direction where
  | start
  | resolve
deriving DecidableEq, Repr

/-- A message handed to `notifySlackBackground`. The field `identity` is the
incident identity (`startKey`) the send was approved for; it is bookkeeping of
the model and not part of the message. -/
structure Notification where
  /-- Start or resolve. -/
  direction : Direction
  /-- The start key the approval was made for. -/
  identity : Option String
  /-- The message text. -/
  text : String
deriving DecidableEq, Repr

/-- The function `getDedupeKey`. -/
def getDedupeKey (svc : Service) : String :=
  let base := if truthy svc.statusUrl then orEmpty svc.statusUrl else svc.name
  let base := if base.data.getLast? = some '/' then String.mk base.data.dropLast else base
  toLowerCase base

/-- The suppression window of 120 s, in milliseconds. -/
def suppressWindowMs : Int := 120 * 1000

/-- The suppression test shared by all four send sites: the stored signature
differs and the last attempt is at least one window old. -/
def notSuppressed (st : Store) (key sigVal : String) (now : Int) : Bool :=
  st.sig key != sigVal && decide (now - st.notifyTs key ≥ suppressWindowMs)

/-- The text `\nStatus: <statusUrl>` or nothing. -/
def statusLink (svc : Service) : String :=
  if truthy svc.statusUrl then "\nStatus: " ++ orEmpty svc.statusUrl else ""

/-! ## Single-incident reconcile step (services that are not `statuspage`) -/

/-- Result of one reconcile step: the store it leaves, the messages it sent and
whether the handler executed `return` (which ends the whole poll cycle) rather
than `continue`. -/
structure Outcome where
  /-- Store after the step. -/
  store : Store
  /-- Messages handed to the notifier, in order. -/
  sent : List Notification
  /-- True when the step left the handler by `return`. -/
  exit : Bool

/-- The constant `currentIncidentId`. -/
def currentIncidentId (current : Observation) : Option String :=
  if truthy current.incidentId then some (jsTrim (orEmpty current.incidentId)) else none

/-- The constant `currentStartedAtMs`; `none` covers `null` and `NaN`, the two
values `Number.isFinite` rejects. -/
def currentStartedAtMs (env : Env) (current : Observation) : Option Int :=
  if truthy current.startedAt then env.dateParse (orEmpty current.startedAt) else none

/-- The constant `currentIncidentKey`. -/
def currentIncidentKey (env : Env) (current : Observation) : Option String :=
  match currentStartedAtMs env current with
  | some ms => some ("ts:" ++ toString ms)
  | none =>
    if truthy (currentIncidentId current) then
      some ("id:" ++ orEmpty (currentIncidentId current))
    else none

/-- The expression `x ? 'ts:' + Date.parse(x) : null`. -/
def tsKeyOf (env : Env) (x : Option String) : Option String :=
  if truthy x then some ("ts:" ++ numText (env.dateParse (orEmpty x))) else none

/-- The expression `x ? 'id:' + x : null`. -/
def idKeyOf (x : Option String) : Option String :=
  if truthy x then some ("id:" ++ orEmpty x) else none

/-- Text of a start notification. -/
def startText (svc : Service) (emoji title started : String) : String :=
  emoji ++ " " ++ svc.name ++ ": " ++ title ++ "\nStarted: " ++ started ++ statusLink svc

/-- Severity marker of the single-incident start message. -/
def severityEmoji (current : Observation) : String :=
  if current.severity = some "critical" then ":red_circle:" else ":large_yellow_circle:"

/-- The constant `startedAt` of the incident branch. -/
def incidentStartedAt (env : Env) (current : Observation) (persisted : PersistedState)
    (now : Int) : Option String :=
  orElse current.startedAt (orElse persisted.startedAt (some (env.toISOString now)))

/-- The constant `persistedStartKey` of the incident branch. -/
def persistedStartKey (env : Env) (persisted : PersistedState) : Option String :=
  orElse persisted.startKey
    (orElse (tsKeyOf env persisted.startedAt) (idKeyOf persisted.incidentId))

/-- The constant `startKey` of the incident branch. -/
def incidentStartKeyOf (env : Env) (current : Observation) (persisted : PersistedState)
    (now : Int) : Option String :=
  orElse (currentIncidentKey env current)
    (tsKeyOf env (incidentStartedAt env current persisted now))

/-- The constant `isNewIncident` of the incident branch. -/
def isNewIncident (env : Env) (current : Observation) (persisted : PersistedState)
    (now : Int) : Bool :=
  truthy (incidentStartKeyOf env current persisted now)
    && truthy (persistedStartKey env persisted)
    && decide (incidentStartKeyOf env current persisted now ≠ persistedStartKey env persisted)

/-- The test that makes an incident observation a candidate for a start
notification. -/
def isStartCandidate (env : Env) (current : Observation) (persisted : PersistedState)
    (now : Int) : Bool :=
  isNewIncident env current persisted now
    || (truthy (incidentStartKeyOf env current persisted now)
      && decide (persisted.lastNotifiedStartKey ≠ incidentStartKeyOf env current persisted now))

/-- The start message of the single-incident branch. -/
def startMessage (env : Env) (svc : Service) (current : Observation)
    (persisted : PersistedState) (now : Int) : Notification :=
  { direction := Direction.start
    identity := orNull (incidentStartKeyOf env current persisted now)
    text := startText svc (severityEmoji current)
      (orEmpty (orElse current.title (some "Incident detected")))
      (env.toLocaleString (orEmpty (incidentStartedAt env current persisted now))) }

/-- Branch `current.state === 'incident'` of the handler. -/
def reconcileIncident (env : Env) (svc : Service) (current : Observation) (now : Int)
    (st : Store) : Outcome :=
  let baseKey := getDedupeKey svc
  let persisted := st.persisted
  let curId := currentIncidentId current
  let curKey := currentIncidentKey env current
  let startedAt := incidentStartedAt env current persisted now
  if persisted.state = "incident" ∧ truthy persisted.lastNotifiedStartKey = true then
    -- hard guard
    { store := setPersistedState st
        { state := "incident"
          startedAt := startedAt
          startKey := orElse persisted.startKey curKey
          lastNotifiedStartAt := orElse persisted.lastNotifiedStartAt startedAt
          lastNotifiedStartKey := persisted.lastNotifiedStartKey
          incidentId := orElse curId persisted.incidentId }
      sent := []
      exit := false }
  else
    let startKey := incidentStartKeyOf env current persisted now
    if isStartCandidate env current persisted now = true then
      let sigKey := baseKey ++ ":start"
      let sigVal := "start:" ++ orEmpty (orElse startKey startedAt)
      if notSuppressed st sigKey sigVal now = true then
        let st1 := setLastNotifiedTs st sigKey now
        let st2 := setLastSignature st1 sigKey sigVal
        { store := setPersistedState st2
            { state := "incident"
              startedAt := startedAt
              startKey := startKey
              lastNotifiedStartAt := startedAt
              lastNotifiedStartKey := startKey
              lastNotifiedResolveAt := none
              lastNotifiedResolveKey := none
              lastNonIncidentTs := 0
              incidentId := orElse curId persisted.incidentId }
          sent := [startMessage env svc current persisted now]
          exit := false }
      else
        { store := st, sent := [], exit := false }
    else
      { store := setPersistedState st
          { state := "incident"
            startedAt := startedAt
            startKey := orElse curKey persisted.startKey
            incidentId := orElse curId persisted.incidentId }
        sent := []
        exit := false }

/-- Text of the single-incident resolve notification. -/
def resolveText (svc : Service) (startedStr ended : String) : String :=
  ":white_check_mark: " ++ svc.name ++ " back to normal\nStarted: " ++ startedStr
    ++ "\nResolved: " ++ ended ++ statusLink svc

/-- The constant `hasStarted` of the operational branch. -/
def hasStarted (persisted : PersistedState) : Bool :=
  truthy persisted.startedAt || truthy persisted.startKey
    || decide (persisted.state = "incident")

/-- The constant `startKey` of the operational branch: the tracked incident. -/
def trackedStartKey (env : Env) (persisted : PersistedState) : Option String :=
  orElse persisted.startKey (tsKeyOf env persisted.startedAt)

/-- The constant `startWasNotified` of the operational branch. -/
def startWasNotified (env : Env) (persisted : PersistedState) : Bool :=
  truthy persisted.lastNotifiedStartKey && truthy (trackedStartKey env persisted)
    && decide (persisted.lastNotifiedStartKey = trackedStartKey env persisted)

/-- The constant `resolveNotSent` of the operational branch. -/
def resolveNotSent (env : Env) (persisted : PersistedState) : Bool :=
  !truthy persisted.lastNotifiedResolveKey
    || (truthy (trackedStartKey env persisted)
      && decide (persisted.lastNotifiedResolveKey ≠ trackedStartKey env persisted))

/-- The resolve message of the single-incident branch. -/
def resolveMessage (env : Env) (svc : Service) (persisted : PersistedState) (now : Int) :
    Notification :=
  { direction := Direction.resolve
    identity := orNull (trackedStartKey env persisted)
    text := resolveText svc (env.toLocaleString (orEmpty (orNull persisted.startedAt)))
      (env.nowLocaleString now) }

/-- Branch `current.state === 'operational'` of the handler. -/
def reconcileOperational (env : Env) (svc : Service) (now : Int) (st : Store) : Outcome :=
  let baseKey := getDedupeKey svc
  let persisted := st.persisted
  let startKey := trackedStartKey env persisted
  if (hasStarted persisted && resolveNotSent env persisted) = true then
    let sigKey := baseKey ++ ":resolve"
    let sigVal := "resolve:" ++ orEmpty (orNull startKey)
    if notSuppressed st sigKey sigVal now = true then
      let st1 := setLastNotifiedTs st sigKey now
      let st2 := setLastSignature st1 sigKey sigVal
      { store := setPersistedState st2
          { state := "operational"
            startedAt := none
            startKey := none
            lastNotifiedResolveAt := persisted.startedAt
            lastNotifiedResolveKey :=
              orElse startKey (orElse persisted.lastNotifiedStartKey (some "resolved"))
            lastNonIncidentTs := now
            incidentId := none }
        sent := [resolveMessage env svc persisted now]
        exit := true }
    else
      { store := st, sent := [], exit := true }
  else if startWasNotified env persisted = false then
    { store := setPersistedState st { state := "operational", incidentId := none }
      sent := []
      exit := false }
  else
    { store := st, sent := [], exit := false }

/-- Remaining branch of the handler (any other `current.state`): track the last
non-incident time, then apply the grace reset. -/
def reconcileUnknown (cfg : Config) (now : Int) (st : Store) : Outcome :=
  let persisted := st.persisted
  let st1 := setPersistedState st
    { state := persisted.state
      startedAt := persisted.startedAt
      lastNonIncidentTs := now
      incidentId := persisted.incidentId }
  let st2 :=
    if persisted.state = "incident" ∧ persisted.lastNonIncidentTs ≠ 0 then
      if now - persisted.lastNonIncidentTs ≥ cfg.resetUnknownMinutes * 60 * 1000 then
        setPersistedState st1
          { state := "operational"
            startedAt := none
            lastNonIncidentTs := now
            incidentId := none }
      else st1
    else st1
  { store := st2, sent := [], exit := false }

/-- One single-incident reconcile step of the handler for one service:
observation `current` at clock reading `now` against the store `st`. -/
def reconcile (env : Env) (cfg : Config) (svc : Service) (current : Observation) (now : Int)
    (st : Store) : Outcome :=
  if current.state = "incident" then reconcileIncident env svc current now st
  else if current.state = "operational" then reconcileOperational env svc now st
  else reconcileUnknown cfg now st

/-- Successive reconcile steps of one service against a store that persists
between them; returns the final store and the messages of each step. -/
def runSingle (env : Env) (cfg : Config) (svc : Service) :
    List (Observation × Int) → Store → Store × List (List Notification)
  | [], st => (st, [])
  | (o, now) :: rest, st =>
    let r := reconcile env cfg svc o now st
    let t := runSingle env cfg svc rest r.store
    (t.1, r.sent :: t.2)

/-- Number of notifications of direction `d` approved for identity `k`. -/
def countFor (d : Direction) (k : String) (ns : List Notification) : Nat :=
  (ns.filter (fun n => decide (n.direction = d ∧ n.identity = some k))).length

/-- Number of start notifications in a list of messages. -/
def countStartAny (ns : List Notification) : Nat :=
  (ns.filter (fun n => decide (n.direction = Direction.start))).length

/-! ## Multi-incident reconcile cycle (services of type `statuspage`) -/

/-- An element of `summary.incidents`, with the fields the handler reads. -/
structure RawIncident where
  /-- Upstream status tag. -/
  status : Option String := none
  /-- Upstream identifier. -/
  id : Option String := none
  /-- Field `started_at`. -/
  started_at : Option String := none
  /-- Field `created_at`. -/
  created_at : Option String := none
  /-- Field `startedAt`. -/
  startedAt : Option String := none
  /-- Upstream impact. -/
  impact : Option String := none
  /-- Field `name`. -/
  name : Option String := none
  /-- Field `title`. -/
  title : Option String := none
deriving DecidableEq, Repr

/-- The filter predicate of `active`. -/
def isActive (i : RawIncident) : Bool :=
  toLowerCase (orEmpty i.status) != "resolved"

/-- The constant `started` of the start loop. -/
def incidentStarted (inc : RawIncident) : Option String :=
  orElse inc.started_at (orElse inc.created_at inc.startedAt)

/-- The constant `startKey` of the start loop. -/
def incidentStartKey (env : Env) (inc : RawIncident) : Option String :=
  let started := incidentStarted inc
  let startedMs : Option Int :=
    if truthy started then env.dateParse (orEmpty started) else none
  match startedMs with
  | some ms => some ("ts:" ++ toString ms)
  | none => if truthy inc.id then some ("id:" ++ orEmpty inc.id) else none

/-- Property read `m[k]` on a string-valued object. -/
def mapGet (m : List (String × String)) (k : String) : Option String :=
  (m.find? (fun e => e.1 == k)).map (fun e => e.2)

/-- Property write `m[k] = v` on a string-valued object. -/
def mapSet (m : List (String × String)) (k v : String) : List (String × String) :=
  if m.any (fun e => e.1 == k) then m.map (fun e => if e.1 = k then (k, v) else e)
  else m ++ [(k, v)]

/-- Elements of a JavaScript `Set` built from an array, in insertion order. -/
def setOf : List String → List String
  | [] => []
  | x :: xs => x :: (setOf xs).filter (fun y => y != x)

/-- State threaded through the loops of one cycle. -/
structure CycleAcc where
  /-- The store. -/
  store : Store
  /-- Messages sent so far in the cycle. -/
  sent : List Notification
  /-- The set `nowActiveKeys`. -/
  nowActiveKeys : List String

/-- Marker of the multi-incident start message. -/
def impactEmoji (inc : RawIncident) : String :=
  if toLowerCase (orEmpty inc.impact) = "critical" then ":red_circle:"
  else ":large_yellow_circle:"

/-- Body of the start loop for one active incident. `persisted` is the record
read once at the beginning of the cycle. -/
def startStep (env : Env) (svc : Service) (persisted : PersistedState) (now : Int)
    (acc : CycleAcc) (inc : RawIncident) : CycleAcc :=
  let baseKey := getDedupeKey svc
  let incidentId := orNull inc.id
  let started := incidentStarted inc
  let startKeyO := incidentStartKey env inc
  if truthy startKeyO = false then acc
  else
    let startKey := orEmpty startKeyO
    let active := if startKey ∈ acc.nowActiveKeys then acc.nowActiveKeys
      else acc.nowActiveKeys ++ [startKey]
    if startKey ∈ persisted.notifiedStartKeys then { acc with nowActiveKeys := active }
    else
      let sigKey := baseKey ++ ":start:" ++ startKey
      let sigVal := "start:" ++ startKey
      if notSuppressed acc.store sigKey sigVal now = true then
        let st1 := setLastNotifiedTs acc.store sigKey now
        let st2 := setLastSignature st1 sigKey sigVal
        let title := orEmpty (orElse inc.name (orElse inc.title (some "Incident detected")))
        let startedStr :=
          if truthy started then env.toLocaleString (orEmpty started)
          else env.nowLocaleString now
        let msg : Notification :=
          { direction := Direction.start
            identity := some startKey
            text := startText svc (impactEmoji inc) title startedStr }
        let st3 := setPersistedState st2
          { state := "incident"
            startedAt := started
            startKey := some startKey
            lastNotifiedStartAt := started
            lastNotifiedStartKey := some startKey
            lastNotifiedResolveAt := persisted.lastNotifiedResolveAt
            lastNotifiedResolveKey := persisted.lastNotifiedResolveKey
            lastNonIncidentTs := 0
            incidentId := incidentId
            notifiedStartKeys := persisted.notifiedStartKeys ++ [startKey]
            notifiedResolveKeys := persisted.notifiedResolveKeys
            startKeyToStartedAt := mapSet persisted.startKeyToStartedAt startKey
              (orEmpty (orElse started (some (env.toISOString now))))
            startKeyToTitle := mapSet persisted.startKeyToTitle startKey title }
        { store := st3, sent := acc.sent ++ [msg], nowActiveKeys := active }
      else { acc with nowActiveKeys := active }

/-- Text of the multi-incident resolve notification. -/
def resolveTextMulti (svc : Service) (title startedStr ended : String) : String :=
  ":white_check_mark: " ++ svc.name ++ " back to normal — " ++ title ++ "\nStarted: "
    ++ startedStr ++ "\nResolved: " ++ ended ++ statusLink svc

/-- Body of the resolve loop for one previously notified start key. -/
def resolveStep (env : Env) (svc : Service) (persisted : PersistedState) (now : Int)
    (acc : CycleAcc) (startKey : String) : CycleAcc :=
  let baseKey := getDedupeKey svc
  let previouslyNotified := persisted.notifiedStartKeys
  let alreadyResolved := setOf persisted.notifiedResolveKeys
  if startKey ∈ acc.nowActiveKeys ∨ startKey ∈ alreadyResolved then acc
  else
    let sigKey := baseKey ++ ":resolve:" ++ startKey
    let sigVal := "resolve:" ++ startKey
    if notSuppressed acc.store sigKey sigVal now = true then
      let st1 := setLastNotifiedTs acc.store sigKey now
      let st2 := setLastSignature st1 sigKey sigVal
      let startedIso := orNull (mapGet persisted.startKeyToStartedAt startKey)
      let startedStr :=
        if truthy startedIso then env.toLocaleString (orEmpty startedIso) else ""
      let ended := env.nowLocaleString now
      let title := orEmpty (orElse (mapGet persisted.startKeyToTitle startKey) (some "Incident"))
      let msg : Notification :=
        { direction := Direction.resolve
          identity := some startKey
          text := resolveTextMulti svc title startedStr ended }
      let newResolved := alreadyResolved ++ [startKey]
      let operational : Bool := decide (newResolved.length ≥ previouslyNotified.length)
      let st3 := setPersistedState st2
        { state := if operational then "operational" else "incident"
          startedAt := if operational then none else persisted.startedAt
          startKey := if operational then none else persisted.startKey
          lastNotifiedResolveAt := startedIso
          lastNotifiedResolveKey := some startKey
          lastNonIncidentTs := if operational then now else persisted.lastNonIncidentTs
          incidentId := none
          notifiedStartKeys := previouslyNotified
          notifiedResolveKeys := newResolved
          startKeyToStartedAt := persisted.startKeyToStartedAt
          startKeyToTitle := persisted.startKeyToTitle }
      { acc with store := st3, sent := acc.sent ++ [msg] }
    else acc

/-- One multi-incident cycle of the handler for one statuspage service: the
incident list of the fetched summary at clock reading `now`, against `st`. -/
def reconcileMulti (env : Env) (svc : Service) (incidents : List RawIncident) (now : Int)
    (st : Store) : CycleAcc :=
  let active := incidents.filter isActive
  let persisted := st.persisted
  let acc0 : CycleAcc := { store := st, sent := [], nowActiveKeys := [] }
  let acc1 := active.foldl (startStep env svc persisted now) acc0
  persisted.notifiedStartKeys.foldl (resolveStep env svc persisted now) acc1

/-- Successive multi-incident cycles of one service against a store that
persists between them; returns the final store and the messages of each cycle. -/
def runMulti (env : Env) (svc : Service) :
    List (List RawIncident × Int) → Store → Store × List (List Notification)
  | [], st => (st, [])
  | (incs, now) :: rest, st =>
    let r := reconcileMulti env svc incs now st
    let t := runMulti env svc rest r.store
    (t.1, r.sent :: t.2)

/-- All messages of a run, in order. -/
def allSent (r : Store × List (List Notification)) : List Notification :=
  r.2.flatten

/-- Number of resolve notifications in a list of messages. -/
def countResolveAny (ns : List Notification) : Nat :=
  (ns.filter (fun n => decide (n.direction = Direction.resolve))).length

/-! ## Concrete inputs used to exercise the theorems -/

/-- A sample platform: `T0` and `T1` parse to two instants, nothing else parses. -/
def sampleEnv : Env :=
  { dateParse := fun s =>
      if s = "T0" then some 1000 else if s = "T1" then some 2000 else none
    toISOString := fun _ => "2026-01-01T00:00:00.000Z"
    toLocaleString := fun s => s
    nowLocaleString := fun t => toString t
    iso_nonempty := fun _ => (by decide : "2026-01-01T00:00:00.000Z" ≠ "") }

/-- The configured service `Firebase` (type `local`). -/
def firebase : Service :=
  { name := "Firebase", type := "local", url := "/.netlify/functions/api/firebase/status"
    statusUrl := some "https://status.firebase.google.com/" }

/-- The configured service `Sentry` (type `statuspage`). -/
def sentry : Service :=
  { name := "Sentry", type := "statuspage", url := "https://status.sentry.io/api/v2/summary.json"
    statusUrl := some "https://status.sentry.io/" }

/-- An incident observation with onset `T0`, critical. -/
def obsT0 : Observation :=
  { state := "incident", severity := some "critical", title := some "API down"
    startedAt := some "T0" }

/-- An incident observation with onset `T1`. -/
def obsT1 : Observation :=
  { state := "incident", severity := some "minor", title := some "Slow sync"
    startedAt := some "T1" }

/-- The incident observation of scenario A: critical, onset `T0`. -/
def criticalIncident (T0 : String) (title incidentId : Option String) : Observation :=
  { state := "incident", severity := some "critical", title := title
    startedAt := some T0, incidentId := incidentId }

/-- An operational observation. -/
def obsOperational : Observation := { state := "operational" }

/-- An unknown observation. -/
def obsUnknown : Observation := { state := "unknown" }

/-- Statuspage incident A. -/
def incidentA : RawIncident :=
  { status := some "investigating", id := some "a1", started_at := some "T0"
    name := some "API errors" }

/-- Statuspage incident B. -/
def incidentB : RawIncident :=
  { status := some "identified", id := some "b1", started_at := some "T1"
    name := some "Slow ingest" }

/-! ## Definitions used to state the suppression invariant -/

/-- Signature key of the multi-incident branch for a direction and start key. -/
def sigKeyFor (base : String) : Direction → String → String
  | Direction.start, k => base ++ ":start:" ++ k
  | Direction.resolve, k => base ++ ":resolve:" ++ k

/-- Signature value of the multi-incident branch for a direction and start key. -/
def sigValFor : Direction → String → String
  | Direction.start, k => "start:" ++ k
  | Direction.resolve, k => "resolve:" ++ k

/-- Every identity was notified at most once per direction, and a notified
identity has its signature on record. -/
def OncePerKey (base : String) (sig : String → String) (sent : List Notification) : Prop :=
  ∀ d k, countFor d k sent ≤ 1 ∧
    (countFor d k sent = 1 → sig (sigKeyFor base d k) = sigValFor d k)

/-- A store whose record tracks incident `ts:1000` with no start notification
on record and no suppression record. -/
def untoldIncidentStore : Store :=
  { persisted := { state := "incident", startKey := some "ts:1000" }
    notifyTs := fun _ => 0
    sig := fun _ => "" }

/-- A store whose record tracks incident `ts:1000` with its resolve already on
record and no start on record. -/
def resolvedIncidentStore : Store :=
  { persisted :=
      { state := "incident", startKey := some "ts:1000"
        lastNotifiedResolveKey := some "ts:1000" }
    notifyTs := fun _ => 0
    sig := fun _ => "" }

/-- A store whose record has been in `incident` since a non-incident reading at
300 s. -/
def staleIncidentStore : Store :=
  { persisted := { state := "incident", startedAt := some "T0", lastNonIncidentTs := 300000 }
    notifyTs := fun _ => 0
    sig := fun _ => "" }

/-- The five polls, 200 s apart: incident `T0`, operational, incident `T1`,
operational, incident `T0` again. -/
def churnPolls : List (Observation × Int) :=
  [(obsT0, 200000), (obsOperational, 400000), (obsT1, 600000),
    (obsOperational, 800000), (obsT0, 1000000)]

/-- The four cycles of scenario C: active sets `[A, B]`, `[B]`, `[]`, `[]`. -/
def scenarioCCycles : List (List RawIncident × Int) :=
  [([incidentA, incidentB], 200000), ([incidentB], 500000), ([], 800000), ([], 1100000)]

/-! ## Reading the persisted record from the raw stored value -/

/-- What `kvGet` produced for the key `state:<baseKey>`. -/
inductive KvRead where
  /-- The read rejected (outer `catch` of `getPersistedState`). -/
  | failed
  /-- Nothing is stored (`null`). -/
  | absent
  /-- A stored text, possibly empty. -/
  | value (text : String)
deriving DecidableEq, Repr

/-- What `JSON.parse` makes of a stored text, as far as `getPersistedState`
can tell the cases apart. -/
inductive ParseResult where
  /-- The text is not JSON: `JSON.parse` throws. -/
  | syntaxError
  /-- The text is JSON `null`: reading a property of it throws. -/
  | null
  /-- The text is a JSON number, string, boolean or array: every property the
  function reads is `undefined`. -/
  | other
  /-- The text is a JSON object holding these fields. -/
  | object (fields : PersistedState)
deriving DecidableEq, Repr

/-- The function `getPersistedState`, from the raw read. `jsonParse` is the
built-in `JSON.parse`. -/
def getPersistedState (jsonParse : String → ParseResult) (read : KvRead) : PersistedState :=
  match read with
  | KvRead.failed => defaultState
  | KvRead.absent => defaultState
  | KvRead.value text =>
    if text = "" then defaultState
    else
      match jsonParse text with
      | ParseResult.syntaxError => defaultState
      | ParseResult.null => defaultState
      | ParseResult.other => readBack { state := "" }
      | ParseResult.object fields => readBack fields

/-! ## Dedupe key: the words of the specification -/

/-- The string `getDedupeKey` starts from: the status URL when it is truthy,
the name otherwise. -/
def dedupeBase (svc : Service) : String :=
  if truthy svc.statusUrl then orEmpty svc.statusUrl else svc.name

/-- True when every character of the string is ASCII (code point below 128). -/
def isAscii (s : String) : Bool :=
  s.data.all (fun c => decide (c.toNat < 128))

/-- Upper-casing of one character as `String.prototype.toUpperCase` does it, for
the ASCII characters (`a`..`z` become `A`..`Z`) and for the sharp s U+00DF,
which becomes the two letters `SS`. Other characters are kept. -/
def upperChar (c : Char) : List Char :=
  if c.toNat = 0xDF then ['S', 'S'] else [Char.toUpper c]

/-- Upper-casing of a string (`String.prototype.toUpperCase`), the `uppercase`
of the dedupe-key property, character by character through `upperChar`. -/
def toUpperCase (s : String) : String :=
  String.mk (s.data.flatMap upperChar)

/-- The service descriptor that carries a status URL and nothing else. -/
def urlOnly (u : String) : Service :=
  { name := "", type := "", url := "", statusUrl := some u }

/-- True when the string ends with the character `/`. -/
def endsWithSlash (s : String) : Bool :=
  s.data.getLast? == some '/'

/-! ## Start key: the words of the specification -/

/-- The identifier part of the specification's derivation: `id:<identifier>`
for a non-empty identifier, null otherwise. -/
def specIdKey : Option String → Option String
  | some i => if i = "" then none else some ("id:" ++ i)
  | none => none

/-- The start key as the specification derives it from an onset and an
identifier: `ts:<ms>` when the onset is present and parses, otherwise
`id:<identifier>` when a non-empty identifier is present, otherwise null. -/
def specStartKey (env : Env) (startedAt incidentId : Option String) : Option String :=
  match startedAt with
  | some s =>
    if s = "" then specIdKey incidentId
    else
      match env.dateParse s with
      | some ms => some ("ts:" ++ toString ms)
      | none => specIdKey incidentId
  | none => specIdKey incidentId

/-! ## One poll cycle of the handler over the configured services -/

/-- The durable store as seen by the whole handler: one persisted record per
dedupe key, and the two suppression families. -/
structure World where
  /-- The record under `state:<baseKey>`, as `getPersistedState` returns it. -/
  states : String → PersistedState
  /-- The function `getLastNotifiedTs`. -/
  notifyTs : String → Int
  /-- The function `getLastSignature`. -/
  sig : String → String

/-- The store one service works on. -/
def World.view (w : World) (baseKey : String) : Store :=
  { persisted := w.states baseKey, notifyTs := w.notifyTs, sig := w.sig }

/-- The world after one service left its store as `st`. -/
def World.merge (w : World) (baseKey : String) (st : Store) : World :=
  { states := fun k => if k = baseKey then st.persisted else w.states k
    notifyTs := st.notifyTs
    sig := st.sig }

/-- A world with no record at all. -/
def freshWorld : World :=
  { states := fun _ => defaultState, notifyTs := fun _ => 0, sig := fun _ => "" }

/-- What the fetch of one service produced in a cycle. -/
structure Poll where
  /-- False when `getJson` rejected (the service is skipped by the `catch`). -/
  fetched : Bool
  /-- The normalised observation `current` (services that are not `statuspage`). -/
  current : Observation
  /-- The array `summary.incidents` (services of type `statuspage`). -/
  incidents : List RawIncident

/-- Result of the per-service loop of one cycle. -/
structure CycleResult where
  /-- The store after the loop. -/
  world : World
  /-- Messages sent, in order. -/
  sent : List Notification
  /-- Names of the services whose reconcile step was executed, in order. -/
  reconciled : List String
  /-- True when the loop ran to its end, false when the handler returned from
  inside the loop. -/
  completed : Bool

/-- The loop `for (const svc of services)` of the handler at clock reading
`now`: each service is fetched and reconciled in turn; a rejected fetch is
caught and the service skipped; a `return` inside a step ends the handler. -/
def pollServices (env : Env) (cfg : Config) (now : Int) :
    List (Service × Poll) → World → CycleResult
  | [], w => { world := w, sent := [], reconciled := [], completed := true }
  | (svc, poll) :: rest, w =>
    if poll.fetched = false then pollServices env cfg now rest w
    else if svc.type = "statuspage" then
      let r := reconcileMulti env svc poll.incidents now (w.view (getDedupeKey svc))
      let t := pollServices env cfg now rest (w.merge (getDedupeKey svc) r.store)
      { world := t.world, sent := r.sent ++ t.sent
        reconciled := svc.name :: t.reconciled, completed := t.completed }
    else
      let r := reconcile env cfg svc poll.current now (w.view (getDedupeKey svc))
      if r.exit = true then
        { world := w.merge (getDedupeKey svc) r.store, sent := r.sent
          reconciled := [svc.name], completed := false }
      else
        let t := pollServices env cfg now rest (w.merge (getDedupeKey svc) r.store)
        { world := t.world, sent := r.sent ++ t.sent
          reconciled := svc.name :: t.reconciled, completed := t.completed }

/-! ## Further concrete inputs -/

/-- The configured service `Mixpanel` (type `local`). -/
def mixpanel : Service :=
  { name := "Mixpanel", type := "local", url := "/.netlify/functions/api/mixpanel/status"
    statusUrl := some "https://status.mixpanel.com/" }

/-- A successful fetch that normalises to the given observation. -/
def fetchedObservation (o : Observation) : Poll :=
  { fetched := true, current := o, incidents := [] }

/-- A world in which Firebase has an unresolved, notified incident `ts:1000`. -/
def firebaseIncidentWorld : World :=
  (pollServices sampleEnv {} 200000 [(firebase, fetchedObservation obsT0)] freshWorld).world

/-- Unknown observations every 5 minutes from minute 5 to minute 70. -/
def unknownEveryFiveMinutes : List (Observation × Int) :=
  (List.range 14).map (fun i => (obsUnknown, (300000 : Int) * (i + 1)))

/-- A record stuck in `incident` that has seen no non-incident reading yet. -/
def stuckIncidentStore : Store :=
  { persisted := { state := "incident", startedAt := some "T0" }
    notifyTs := fun _ => 0
    sig := fun _ => "" }

/-- A record under the hard guard: incident `ts:1000`, start notified. -/
def notifiedIncidentStore : Store :=
  { persisted :=
      { state := "incident", startedAt := some "T0", startKey := some "ts:1000"
        lastNotifiedStartAt := some "T0", lastNotifiedStartKey := some "ts:1000" }
    notifyTs := fun _ => 0
    sig := fun _ => "" }

/-! ## Normalizers -/

/-- The payload of a `local` endpoint, with the fields `normalizeFromLocal`
reads. `state` is `some s` exactly when `typeof data.state === 'string'`. -/
structure LocalPayload where
  /-- Field `state` when it is a string. -/
  state : Option String := none
  /-- Field `severity`. -/
  severity : Option String := none
  /-- Field `title`. -/
  title : Option String := none
  /-- Field `startedAt`. -/
  startedAt : Option String := none
deriving DecidableEq, Repr

/-- The function `normalizeFromLocal`; `none` is a falsy payload. -/
def normalizeFromLocal (data : Option LocalPayload) : Observation :=
  match data with
  | none => { state := "unknown" }
  | some d =>
    match d.state with
    | some s =>
      { state := s
        severity := orElse d.severity (some "minor")
        title := orNull d.title
        startedAt := orNull d.startedAt }
    | none => { state := "unknown" }

/-- An element of `summary.incidents`, with the fields
`parseStatuspageSummary` reads. -/
structure SummaryIncident where
  /-- Field `status`. -/
  status : Option String := none
  /-- Field `impact`. -/
  impact : Option String := none
  /-- Field `impact_override`. -/
  impact_override : Option String := none
  /-- Field `started_at`. -/
  started_at : Option String := none
  /-- Field `created_at`. -/
  created_at : Option String := none
  /-- Field `id`. -/
  id : Option String := none
  /-- Field `shortlink`. -/
  shortlink : Option String := none
  /-- Field `url`. -/
  url : Option String := none
  /-- Field `name`. -/
  name : Option String := none
deriving DecidableEq, Repr

/-- The value of `summary.incidents`. -/
inductive IncidentsField where
  /-- A falsy value (`undefined`, `null`): `summary.incidents || []` is empty. -/
  | missing
  /-- A truthy value that is not an array: calling `find` on it throws. -/
  | malformed
  /-- An array of incident objects. -/
  | array (items : List SummaryIncident)
deriving DecidableEq, Repr

/-- A Statuspage summary, with what `parseStatuspageSummary` reads of it. -/
structure Summary where
  /-- Field `incidents`. -/
  incidents : IncidentsField := IncidentsField.missing
  /-- Whether `summary.scheduled_maintenances` is an array. -/
  hasMaintenances : Bool := false
  /-- Field `status.indicator` when it is a string. -/
  indicator : Option String := none
  /-- Field `status.description`. -/
  description : Option String := none
deriving DecidableEq, Repr

/-- Second block of `parseStatuspageSummary`: the status indicator. -/
def parseIndicator (s : Summary) : Observation :=
  match s.indicator with
  | none => { state := "unknown" }
  | some i =>
    let ind := toLowerCase i
    let title := orElse s.description (some "Service Incident")
    if ind = "none" then { state := "operational" }
    else if ind = "minor" then
      { state := "incident", severity := some "minor", title := title }
    else if ind = "major" ∨ ind = "critical" then
      { state := "incident", severity := some "critical", title := title }
    else { state := "unknown" }

/-- The observation built from the first incident that is not resolved. -/
def observationOfActive (active : SummaryIncident) : Observation :=
  let impact := toLowerCase
    (orEmpty (orElse active.impact (orElse active.impact_override (some "minor"))))
  { state := "incident"
    severity := if impact = "critical" ∨ impact = "major" then some "critical" else some "minor"
    title := orElse active.name (some "Service Incident")
    startedAt := orNull (orElse active.started_at active.created_at)
    incidentId := orNull (orElse active.id (orElse active.shortlink active.url)) }

/-- The function `parseStatuspageSummary` of `lib/status-utils.js`; `none` is a
falsy summary. An exception in the first block is caught and the second block
runs. -/
def parseStatuspageSummary (summary : Option Summary) : Observation :=
  match summary with
  | none => { state := "unknown" }
  | some s =>
    match s.incidents with
    | IncidentsField.array items =>
      match items.find? (fun i => i.status != some "resolved") with
      | some active => observationOfActive active
      | none => { state := "operational" }
    | IncidentsField.missing =>
      if s.hasMaintenances = true then { state := "operational" } else parseIndicator s
    | IncidentsField.malformed => parseIndicator s

/-- The function `normalizeFromStatuspage` of the handler. -/
def normalizeFromStatuspage (summary : Option Summary) : Observation :=
  parseStatuspageSummary summary

/-- The canonical states of an observation. -/
def isCanonicalState (s : String) : Bool :=
  s = "operational" || s = "incident" || s = "unknown"

/-- The canonical severities. -/
def isCanonicalSeverity (s : Option String) : Bool :=
  s = some "minor" || s = some "critical"

/-! ## The configured services -/

/-- The array `services` of the handler; `siteUrl` is `process.env.URL` or its
default. -/
def services (siteUrl : String) : List Service :=
  [ { name := "Google Play Store", type := "local"
      url := siteUrl ++ "/.netlify/functions/api/google/play-status"
      statusUrl := some "https://status.play.google.com/" },
    { name := "Google Play Services", type := "local"
      url := siteUrl ++ "/.netlify/functions/api/google/play-status"
      statusUrl := some "https://status.play.google.com/" },
    { name := "Apple App Store", type := "local"
      url := siteUrl ++ "/.netlify/functions/api/apple/status"
      statusUrl := some "https://developer.apple.com/system-status/" },
    { name := "Firebase", type := "local"
      url := siteUrl ++ "/.netlify/functions/api/firebase/status"
      statusUrl := some "https://status.firebase.google.com/" },
    { name := "Mixpanel", type := "local"
      url := siteUrl ++ "/.netlify/functions/api/mixpanel/status"
      statusUrl := some "https://status.mixpanel.com/" },
    { name := "Singular", type := "statuspage"
      url := "https://status.singular.net/api/v2/summary.json"
      statusUrl := some "https://status.singular.net/" },
    { name := "Sentry", type := "statuspage"
      url := "https://status.sentry.io/api/v2/summary.json"
      statusUrl := some "https://status.sentry.io/" },
    { name := "Facebook Audience Network", type := "local"
      url := siteUrl ++ "/.netlify/functions/api/facebook/status"
      statusUrl := some "https://metastatus.com/" },
    { name := "Google AdMob", type := "local"
      url := siteUrl ++ "/.netlify/functions/api/google/cloud-status"
      statusUrl := some "https://status.cloud.google.com/" },
    { name := "Realm Database", type := "statuspage"
      url := "https://status.mongodb.com/api/v2/summary.json"
      statusUrl := some "https://status.mongodb.com/" },
    { name := "Slack", type := "local"
      url := siteUrl ++ "/.netlify/functions/api/slack/status"
      statusUrl := some "https://status.slack.com/" },
    { name := "Notion", type := "statuspage"
      url := "https://www.notion-status.com/api/v2/summary.json"
      statusUrl := some "https://www.notion-status.com/" },
    { name := "Figma", type := "statuspage"
      url := "https://status.figma.com/api/v2/summary.json"
      statusUrl := some "https://status.figma.com/" },
    { name := "Jira Software", type := "statuspage"
      url := "https://jira-software.status.atlassian.com/api/v2/summary.json"
      statusUrl := some "https://jira-software.status.atlassian.com/" } ]

/-- Name and dedupe key of every configured service. -/
def serviceKeys (siteUrl : String) : List (String × String) :=
  (services siteUrl).map (fun s => (s.name, getDedupeKey s))

/-! ## Definitions used to state the properties of runs -/

/-- The invariant of the persisted record of a single-incident service: the
record is in the form `getPersistedState` returns (a non-null key is truthy), a
non-null `lastNotifiedStartKey` goes with `state = incident` and an equal
`startKey`, and a state other than `incident` has no onset and no start key. -/
def RecordInvariant (p : PersistedState) : Prop :=
  orNull p.lastNotifiedStartKey = p.lastNotifiedStartKey ∧
    orNull p.startKey = p.startKey ∧
    orNull p.startedAt = p.startedAt ∧
    (p.lastNotifiedStartKey ≠ none →
      p.state = "incident" ∧ p.startKey = p.lastNotifiedStartKey) ∧
    (p.state ≠ "incident" → p.startedAt = none ∧ p.startKey = none)

/-- Reads a message trace from left to right: `armed` tells whether a start
was sent since the last resolve; every resolve must find it set. -/
def resolvesPaired : Bool → List Notification → Bool
  | _, [] => true
  | armed, n :: rest =>
    match n.direction with
    | Direction.start => resolvesPaired true rest
    | Direction.resolve => armed && resolvesPaired false rest

/-- The test of the grace reset. -/
def graceResetFires (cfg : Config) (persisted : PersistedState) (now : Int) : Prop :=
  persisted.state = "incident" ∧ persisted.lastNonIncidentTs ≠ 0 ∧
    now - persisted.lastNonIncidentTs ≥ cfg.resetUnknownMinutes * 60 * 1000

/-- Start keys of the incidents of a summary that are not resolved. -/
def activeKeys (env : Env) (incidents : List RawIncident) : List String :=
  (incidents.filter isActive).filterMap (fun inc =>
    if truthy (incidentStartKey env inc) then incidentStartKey env inc else none)

/-- The resolve message of the multi-incident branch for start key `k`, built
from the record read at the beginning of the cycle. -/
def resolveMessageMulti (env : Env) (svc : Service) (persisted : PersistedState) (now : Int)
    (k : String) : Notification :=
  { direction := Direction.resolve
    identity := some k
    text := resolveTextMulti svc
      (orEmpty (orElse (mapGet persisted.startKeyToTitle k) (some "Incident")))
      (if truthy (orNull (mapGet persisted.startKeyToStartedAt k)) then
        env.toLocaleString (orEmpty (orNull (mapGet persisted.startKeyToStartedAt k)))
      else "")
      (env.nowLocaleString now) }

/-- The three conditions under which the resolve loop attempts a resolve
notification for start key `k`. -/
def resolveAttempted (env : Env) (incidents : List RawIncident) (persisted : PersistedState)
    (k : String) : Prop :=
  k ∈ persisted.notifiedStartKeys ∧ k ∉ activeKeys env incidents ∧
    k ∉ persisted.notifiedResolveKeys

/-! ## Concrete cycles of the multi-incident branch -/

/-- Incident A arrives in cycle 1, incident B joins in cycle 2, both are gone
in cycle 3, and cycle 4 sees no incident either. -/
def twoResolvesCycles : List (List RawIncident × Int) :=
  [([incidentA], 200000), ([incidentA, incidentB], 500000), ([], 800000), ([], 1100000)]

/-- Incidents A and B arrive together in cycle 1; in cycle 2 only A is active. -/
def lostStartCycles : List (List RawIncident × Int) :=
  [([incidentA, incidentB], 200000), ([incidentA], 500000)]

/-- A summary with one unresolved incident of impact `Major`. -/
def majorSummary : Summary :=
  { incidents := IncidentsField.array [{ status := some "investigating", impact := some "Major" }] }

/-- A local payload whose state is the string `degraded`. -/
def degradedPayload : LocalPayload :=
  { state := some "degraded" }

/-- A local payload of an incident with severity `major`. -/
def majorPayload : LocalPayload :=
  { state := some "incident", severity := some "major" }

/-! ## Invariant of the resolve loop -/

/-- What holds in the resolve loop of a cycle started on store `st`, once the
start keys in `done` have been processed: the active keys are those of the
summary; a resolve was sent for `k` exactly when `k` was processed, is neither
active nor already resolved, and was not suppressed at the beginning of the
cycle; the suppression record of `k` is untouched until then and holds the
signature afterwards; and every resolve message is the one built from the
record read at the beginning of the cycle. -/
def ResolveLoopInv (env : Env) (svc : Service) (incidents : List RawIncident) (now : Int)
    (st : Store) (done : List String) (acc : CycleAcc) : Prop :=
  (∀ k, k ∈ acc.nowActiveKeys ↔ k ∈ activeKeys env incidents) ∧
  (∀ k, countFor Direction.resolve k acc.sent ≤ 1 ∧
    (countFor Direction.resolve k acc.sent = 1 ↔
      (k ∈ done ∧ k ∉ activeKeys env incidents ∧ k ∉ st.persisted.notifiedResolveKeys ∧
        notSuppressed st (sigKeyFor (getDedupeKey svc) Direction.resolve k)
          (sigValFor Direction.resolve k) now = true))) ∧
  (∀ k, countFor Direction.resolve k acc.sent = 0 →
    acc.store.sig (sigKeyFor (getDedupeKey svc) Direction.resolve k)
        = st.sig (sigKeyFor (getDedupeKey svc) Direction.resolve k) ∧
      acc.store.notifyTs (sigKeyFor (getDedupeKey svc) Direction.resolve k)
        = st.notifyTs (sigKeyFor (getDedupeKey svc) Direction.resolve k)) ∧
  (∀ k, countFor Direction.resolve k acc.sent = 1 →
    acc.store.sig (sigKeyFor (getDedupeKey svc) Direction.resolve k)
      = sigValFor Direction.resolve k) ∧
  (∀ m ∈ acc.sent, m.direction = Direction.resolve → ∀ k, m.identity = some k →
    m = resolveMessageMulti env svc st.persisted now k)

/-! ## The observation of the single-incident branch -/

/-- The observation `current` the single-incident branch works on: the fetched
value through `normalizeFromLocal` for a service of type `local`, through
`normalizeFromStatuspage` otherwise. `payload` and `summary` are the fields of
the fetched value that each normalizer reads. Services of type `statuspage`
never get here: their branch ends with `continue`. -/
def currentOf (svc : Service) (payload : Option LocalPayload) (summary : Option Summary) :
    Observation :=
  if svc.type = "local" then normalizeFromLocal payload else normalizeFromStatuspage summary

/-- A local payload of an incident with onset `T0`. -/
def onsetPayload : LocalPayload :=
  { state := some "incident", severity := some "major", startedAt := some "T0" }

/-- An incident observation without onset whose identifier is `a1`. -/
def obsWithId : Observation :=
  { state := "incident", incidentId := some "a1" }

/-! # Theorems -/

/-! ## Auxiliary facts about strings -/

theorem append_left_cancel {a x y : String} (h : a ++ x = a ++ y) : x = y := by
  have h1 := congrArg String.data h
  simp only [String.data_append] at h1
  exact String.ext (List.append_cancel_left h1)

theorem append_ne_empty (a b : String) (h : a ≠ "") : a ++ b ≠ "" := by
  intro h1
  have h2 := congrArg String.data h1
  simp only [String.data_append] at h2
  have h3 : a.data = [] := (List.append_eq_nil.mp h2).1
  exact h (String.ext h3)

theorem sigKeyFor_injective (base : String) (d d2 : Direction) (k k2 : String)
    (h : sigKeyFor base d k = sigKeyFor base d2 k2) : d = d2 ∧ k = k2 := by
  cases d <;> cases d2 <;> simp only [sigKeyFor, String.append_assoc] at h
  · exact ⟨rfl, append_left_cancel (append_left_cancel h)⟩
  · exfalso
    have h1 := congrArg String.data (append_left_cancel h)
    simp [String.data_append] at h1
  · exfalso
    have h1 := congrArg String.data (append_left_cancel h)
    simp [String.data_append] at h1
  · exact ⟨rfl, append_left_cancel (append_left_cancel h)⟩

/-! ## Facts about the JavaScript value helpers -/

theorem truthy_some (s : String) : truthy (some s) = true ↔ s ≠ "" := by
  simp [truthy]

theorem truthy_orElse (a b : Option String) :
    truthy (orElse a b) = (truthy a || truthy b) := by
  unfold orElse
  by_cases h : truthy a = true
  · simp [h]
  · simp [h]

theorem orNull_of_truthy {a : Option String} (h : truthy a = true) : orNull a = a := by
  simp [orNull, h]

theorem orElse_of_truthy {a : Option String} (b : Option String) (h : truthy a = true) :
    orElse a b = a := by
  simp [orElse, h]

theorem orElse_of_not_truthy {a : Option String} (b : Option String)
    (h : truthy a = false) : orElse a b = b := by
  simp [orElse, h]

theorem truthy_orNull (a : Option String) : truthy (orNull a) = truthy a := by
  unfold orNull
  by_cases h : truthy a = true
  · simp [h]
  · simp only [h]
    simp [truthy] at h ⊢

theorem truthy_tsKeyOf (env : Env) (x : Option String) :
    truthy (tsKeyOf env x) = truthy x := by
  unfold tsKeyOf
  by_cases h : truthy x = true
  · simp only [h, if_true]
    exact (truthy_some _).mpr (append_ne_empty _ _ (by decide))
  · simp only [h]
    simp [truthy] at h ⊢

theorem truthy_incidentStartedAt (env : Env) (o : Observation) (p : PersistedState)
    (now : Int) : truthy (incidentStartedAt env o p now) = true := by
  unfold incidentStartedAt
  rw [truthy_orElse, truthy_orElse]
  have : truthy (some (env.toISOString now)) = true :=
    (truthy_some _).mpr (env.iso_nonempty now)
  simp [this]

theorem truthy_incidentStartKeyOf (env : Env) (o : Observation) (p : PersistedState)
    (now : Int) : truthy (incidentStartKeyOf env o p now) = true := by
  unfold incidentStartKeyOf
  rw [truthy_orElse, truthy_tsKeyOf, truthy_incidentStartedAt]
  simp


/-! ## The single-incident step, branch by branch -/

/-- A persisted record on which the hard guard fires. -/
theorem reconcileIncident_hardGuard (env : Env) (svc : Service) (o : Observation)
    (now : Int) (st : Store) (hs : st.persisted.state = "incident")
    (hn : truthy st.persisted.lastNotifiedStartKey = true) :
    reconcileIncident env svc o now st =
      { store := setPersistedState st
          { state := "incident"
            startedAt := incidentStartedAt env o st.persisted now
            startKey := orElse st.persisted.startKey (currentIncidentKey env o)
            lastNotifiedStartAt :=
              orElse st.persisted.lastNotifiedStartAt (incidentStartedAt env o st.persisted now)
            lastNotifiedStartKey := st.persisted.lastNotifiedStartKey
            incidentId := orElse (currentIncidentId o) st.persisted.incidentId }
        sent := []
        exit := false } := by
  simp [reconcileIncident, hs, hn]

/-- An approved start candidate. -/
theorem reconcileIncident_approved (env : Env) (svc : Service) (o : Observation)
    (now : Int) (st : Store)
    (hg : ¬ (st.persisted.state = "incident" ∧ truthy st.persisted.lastNotifiedStartKey = true))
    (hc : isStartCandidate env o st.persisted now = true)
    (hns : notSuppressed st (getDedupeKey svc ++ ":start")
      ("start:" ++ orEmpty (incidentStartKeyOf env o st.persisted now)) now = true) :
    reconcileIncident env svc o now st =
      { store := setPersistedState
          (setLastSignature (setLastNotifiedTs st (getDedupeKey svc ++ ":start") now)
            (getDedupeKey svc ++ ":start")
            ("start:" ++ orEmpty (incidentStartKeyOf env o st.persisted now)))
          { state := "incident"
            startedAt := incidentStartedAt env o st.persisted now
            startKey := incidentStartKeyOf env o st.persisted now
            lastNotifiedStartAt := incidentStartedAt env o st.persisted now
            lastNotifiedStartKey := incidentStartKeyOf env o st.persisted now
            lastNotifiedResolveAt := none
            lastNotifiedResolveKey := none
            lastNonIncidentTs := 0
            incidentId := orElse (currentIncidentId o) st.persisted.incidentId }
        sent := [startMessage env svc o st.persisted now]
        exit := false } := by
  have ht := truthy_incidentStartKeyOf env o st.persisted now
  have he : orElse (incidentStartKeyOf env o st.persisted now)
      (incidentStartedAt env o st.persisted now) = incidentStartKeyOf env o st.persisted now :=
    orElse_of_truthy _ ht
  unfold reconcileIncident
  simp only [if_neg hg, hc, if_true, he, hns]

/-! ## At most one notification per identity in the multi-incident branch -/

theorem countFor_append (d : Direction) (k : String) (xs ys : List Notification) :
    countFor d k (xs ++ ys) = countFor d k xs + countFor d k ys := by
  simp [countFor, List.filter_append]

theorem countFor_nil (d : Direction) (k : String) : countFor d k [] = 0 := rfl

theorem countFor_single (d d2 : Direction) (k k2 text : String) :
    countFor d k [{ direction := d2, identity := some k2, text := text }]
      = if d2 = d ∧ k2 = k then 1 else 0 := by
  by_cases h : d2 = d ∧ k2 = k
  · simp [countFor, h]
  · simp only [h, if_false]
    simp [countFor]
    intro h1 h2
    exact h ⟨h1, h2⟩

/-- Sending for an identity whose signature is not on record keeps the invariant. -/
theorem oncePerKey_emit (base : String) (sig : String → String) (sent : List Notification)
    (d : Direction) (k text : String) (hinv : OncePerKey base sig sent)
    (hsig : sig (sigKeyFor base d k) ≠ sigValFor d k) :
    OncePerKey base
      (fun x => if x = sigKeyFor base d k then sigValFor d k else sig x)
      (sent ++ [{ direction := d, identity := some k, text := text }]) := by
  intro d2 k2
  rw [countFor_append, countFor_single]
  by_cases h : d = d2 ∧ k = k2
  · obtain ⟨rfl, rfl⟩ := h
    have h0 : countFor d k sent = 0 := by
      have h1 := hinv d k
      by_contra hne
      have : countFor d k sent = 1 := by omega
      exact hsig (h1.2 this)
    simp [h0]
  · have hkey : sigKeyFor base d2 k2 ≠ sigKeyFor base d k := by
      intro he
      have := sigKeyFor_injective base d2 d k2 k he
      exact h ⟨this.1.symm, this.2.symm⟩
    simp only [h, if_false, Nat.add_zero, hkey]
    exact hinv d2 k2

theorem notSuppressed_sig_ne {st : Store} {key sigVal : String} {now : Int}
    (h : notSuppressed st key sigVal now = true) : st.sig key ≠ sigVal := by
  simp only [notSuppressed, Bool.and_eq_true, bne_iff_ne] at h
  exact h.1

theorem startStep_oncePerKey (env : Env) (svc : Service) (p : PersistedState) (now : Int)
    (prior : List Notification) (acc : CycleAcc) (inc : RawIncident)
    (hinv : OncePerKey (getDedupeKey svc) acc.store.sig (prior ++ acc.sent)) :
    OncePerKey (getDedupeKey svc) (startStep env svc p now acc inc).store.sig
      (prior ++ (startStep env svc p now acc inc).sent) := by
  unfold startStep
  simp only
  split
  · exact hinv
  · split
    · exact hinv
    · split
      · rename_i hs
        rw [← List.append_assoc]
        exact oncePerKey_emit (getDedupeKey svc) acc.store.sig (prior ++ acc.sent)
          Direction.start _ _ hinv (notSuppressed_sig_ne hs)
      · exact hinv

theorem resolveStep_oncePerKey (env : Env) (svc : Service) (p : PersistedState) (now : Int)
    (prior : List Notification) (acc : CycleAcc) (k : String)
    (hinv : OncePerKey (getDedupeKey svc) acc.store.sig (prior ++ acc.sent)) :
    OncePerKey (getDedupeKey svc) (resolveStep env svc p now acc k).store.sig
      (prior ++ (resolveStep env svc p now acc k).sent) := by
  unfold resolveStep
  simp only
  split
  · exact hinv
  · split
    · rename_i hs
      rw [← List.append_assoc]
      exact oncePerKey_emit (getDedupeKey svc) acc.store.sig (prior ++ acc.sent)
        Direction.resolve _ _ hinv (notSuppressed_sig_ne hs)
    · exact hinv

theorem foldl_startStep_oncePerKey (env : Env) (svc : Service) (p : PersistedState)
    (now : Int) (prior : List Notification) (incs : List RawIncident) (acc : CycleAcc)
    (hinv : OncePerKey (getDedupeKey svc) acc.store.sig (prior ++ acc.sent)) :
    OncePerKey (getDedupeKey svc) (incs.foldl (startStep env svc p now) acc).store.sig
      (prior ++ (incs.foldl (startStep env svc p now) acc).sent) := by
  induction incs generalizing acc with
  | nil => exact hinv
  | cons i rest ih =>
    exact ih _ (startStep_oncePerKey env svc p now prior acc i hinv)

theorem foldl_resolveStep_oncePerKey (env : Env) (svc : Service) (p : PersistedState)
    (now : Int) (prior : List Notification) (ks : List String) (acc : CycleAcc)
    (hinv : OncePerKey (getDedupeKey svc) acc.store.sig (prior ++ acc.sent)) :
    OncePerKey (getDedupeKey svc) (ks.foldl (resolveStep env svc p now) acc).store.sig
      (prior ++ (ks.foldl (resolveStep env svc p now) acc).sent) := by
  induction ks generalizing acc with
  | nil => exact hinv
  | cons i rest ih =>
    exact ih _ (resolveStep_oncePerKey env svc p now prior acc i hinv)

theorem reconcileMulti_oncePerKey (env : Env) (svc : Service) (incs : List RawIncident)
    (now : Int) (st : Store) (prior : List Notification)
    (hinv : OncePerKey (getDedupeKey svc) st.sig prior) :
    OncePerKey (getDedupeKey svc) (reconcileMulti env svc incs now st).store.sig
      (prior ++ (reconcileMulti env svc incs now st).sent) := by
  unfold reconcileMulti
  apply foldl_resolveStep_oncePerKey
  apply foldl_startStep_oncePerKey
  simpa using hinv

theorem runMulti_oncePerKey (env : Env) (svc : Service)
    (cycles : List (List RawIncident × Int)) (st : Store) (prior : List Notification)
    (hinv : OncePerKey (getDedupeKey svc) st.sig prior) :
    OncePerKey (getDedupeKey svc) (runMulti env svc cycles st).1.sig
      (prior ++ allSent (runMulti env svc cycles st)) := by
  induction cycles generalizing st prior with
  | nil => simpa [runMulti, allSent] using hinv
  | cons c rest ih =>
    obtain ⟨incs, now⟩ := c
    have h1 := reconcileMulti_oncePerKey env svc incs now st prior hinv
    have h2 := ih (reconcileMulti env svc incs now st).store _ h1
    simpa [runMulti, allSent, List.append_assoc] using h2

/-- C2: over any sequence of multi-incident cycles of one statuspage service
against a store that persists between the cycles (whatever it holds at the
beginning), every start key gets at most one start notification and at most
one resolve notification, whatever the incident lists are. -/
theorem multi_at_most_once_per_startKey (env : Env) (svc : Service)
    (cycles : List (List RawIncident × Int)) (st : Store) (k : String) :
    countFor Direction.start k (allSent (runMulti env svc cycles st)) ≤ 1 ∧
    countFor Direction.resolve k (allSent (runMulti env svc cycles st)) ≤ 1 := by
  have h0 : OncePerKey (getDedupeKey svc) st.sig [] := by
    intro d k2
    simp [countFor_nil]
  have h := runMulti_oncePerKey env svc cycles st [] h0
  simp only [List.nil_append] at h
  exact ⟨(h Direction.start k).1, (h Direction.resolve k).1⟩

theorem start_sigKey_ne_resolve_sigKey (base : String) : base ++ ":start" ≠ base ++ ":resolve" := by
  intro h
  have h1 := congrArg String.data (append_left_cancel h)
  simp at h1

theorem notSuppressed_fresh (key v : String) (now : Int) (st : Store)
    (hsig : st.sig key = "") (hts : st.notifyTs key = 0) (hv : v ≠ "")
    (hnow : suppressWindowMs ≤ now) : notSuppressed st key v now = true := by
  simp only [notSuppressed, hsig, hts, Bool.and_eq_true, bne_iff_ne, decide_eq_true_eq]
  exact ⟨fun h => hv h.symm, by omega⟩

/-- First incident observation against a store without record: the start is sent. -/
theorem reconcileIncident_first (env : Env) (svc : Service) (o : Observation) (now : Int)
    (st : Store) (hp : st.persisted = defaultState)
    (hsig : st.sig (getDedupeKey svc ++ ":start") = "")
    (hts : st.notifyTs (getDedupeKey svc ++ ":start") = 0)
    (hnow : suppressWindowMs ≤ now) :
    reconcileIncident env svc o now st =
      { store := setPersistedState
          (setLastSignature (setLastNotifiedTs st (getDedupeKey svc ++ ":start") now)
            (getDedupeKey svc ++ ":start")
            ("start:" ++ orEmpty (incidentStartKeyOf env o st.persisted now)))
          { state := "incident"
            startedAt := incidentStartedAt env o st.persisted now
            startKey := incidentStartKeyOf env o st.persisted now
            lastNotifiedStartAt := incidentStartedAt env o st.persisted now
            lastNotifiedStartKey := incidentStartKeyOf env o st.persisted now
            lastNotifiedResolveAt := none
            lastNotifiedResolveKey := none
            lastNonIncidentTs := 0
            incidentId := orElse (currentIncidentId o) st.persisted.incidentId }
        sent := [startMessage env svc o st.persisted now]
        exit := false } := by
  have ht := truthy_incidentStartKeyOf env o st.persisted now
  apply reconcileIncident_approved
  · intro h
    rw [hp] at h
    exact absurd h.1 (by decide)
  · have hne : st.persisted.lastNotifiedStartKey ≠ incidentStartKeyOf env o st.persisted now := by
      intro h
      rw [← h, hp] at ht
      simp [defaultState, truthy] at ht
    simp [isStartCandidate, ht, hne]
  · exact notSuppressed_fresh _ _ _ _ hsig hts (append_ne_empty _ _ (by decide)) hnow

/-- Every further incident observation is absorbed by the hard guard. -/
theorem runSingle_hardGuard (env : Env) (cfg : Config) (svc : Service)
    (rest : List (Observation × Int)) (st : Store)
    (hinc : ∀ x ∈ rest, x.1.state = "incident")
    (hs : st.persisted.state = "incident")
    (hn : truthy st.persisted.lastNotifiedStartKey = true) :
    (runSingle env cfg svc rest st).2 = List.replicate rest.length [] := by
  induction rest generalizing st with
  | nil => rfl
  | cons x rest ih =>
    obtain ⟨o, t⟩ := x
    have ho : o.state = "incident" := hinc (o, t) (List.mem_cons_self _ _)
    have hstep : reconcile env cfg svc o t st = reconcileIncident env svc o t st := by
      simp [reconcile, ho]
    have hrest : ∀ y ∈ rest, y.1.state = "incident" :=
      fun y hy => hinc y (List.mem_cons_of_mem _ hy)
    simp only [runSingle, hstep, reconcileIncident_hardGuard env svc o t st hs hn,
      List.length_cons, List.replicate_succ]
    rw [ih _ hrest]
    · simp [setPersistedState, readBack]
    · simp [setPersistedState, readBack, orNull_of_truthy hn, hn]

/-- C3: from a store with no persisted state and no suppression record, a
non-empty sequence of incident observations that all derive the same start key
gets a start notification on exactly the first step (carrying that key when it
is not null) and nothing on any later step. The clock is assumed to read at
least one suppression window past the epoch at the first step, since an absent
last-attempt record reads as time 0. -/
theorem start_exactly_on_first_step (env : Env) (cfg : Config) (svc : Service)
    (o : Observation) (t : Int) (rest : List (Observation × Int)) (key : Option String)
    (hinc : ∀ x ∈ (o, t) :: rest, x.1.state = "incident")
    (hkey : ∀ x ∈ (o, t) :: rest, currentIncidentKey env x.1 = key)
    (hclock : suppressWindowMs ≤ t) :
    (runSingle env cfg svc ((o, t) :: rest) freshStore).2
        = [startMessage env svc o defaultState t] :: List.replicate rest.length [] ∧
      (startMessage env svc o defaultState t).direction = Direction.start ∧
      (key ≠ none → (startMessage env svc o defaultState t).identity = key) := by
  have ho : o.state = "incident" := hinc (o, t) (List.mem_cons_self _ _)
  have hstep : reconcile env cfg svc o t freshStore
      = reconcileIncident env svc o t freshStore := by
    simp [reconcile, ho]
  have hfp : freshStore.persisted = defaultState := rfl
  have hfirst := reconcileIncident_first env svc o t freshStore rfl rfl rfl hclock
  rw [hfp] at hfirst
  have ht := truthy_incidentStartKeyOf env o defaultState t
  refine ⟨?_, rfl, ?_⟩
  · simp only [runSingle, hstep, hfirst]
    rw [runSingle_hardGuard env cfg svc rest _
      (fun y hy => hinc y (List.mem_cons_of_mem _ hy))]
    · simp [setPersistedState, readBack]
    · simp [setPersistedState, readBack, orNull_of_truthy ht, ht]
  · intro hk
    have hcur : currentIncidentKey env o = key := hkey (o, t) (List.mem_cons_self _ _)
    have htk : truthy (currentIncidentKey env o) = true := by
      unfold currentIncidentKey at hcur ⊢
      split
      · exact (truthy_some _).mpr (append_ne_empty _ _ (by decide))
      · split
        · exact (truthy_some _).mpr (append_ne_empty _ _ (by decide))
        · rename_i h1 h2
          simp [h1, h2] at hcur
          exact absurd hcur.symm hk
    simp only [startMessage]
    rw [orNull_of_truthy ht]
    unfold incidentStartKeyOf
    rw [orElse_of_truthy _ htk, hcur]

/-! ## Resolve notifications of the single-incident step -/

theorem countResolveAny_append (xs ys : List Notification) :
    countResolveAny (xs ++ ys) = countResolveAny xs + countResolveAny ys := by
  simp [countResolveAny, List.filter_append]

theorem allSent_cons (st st2 : Store) (x : List Notification)
    (xs : List (List Notification)) :
    allSent (st, x :: xs) = x ++ allSent (st2, xs) := by
  simp [allSent]

theorem allSent_eta (r : Store × List (List Notification)) :
    allSent (r.1, r.2) = allSent r := rfl

theorem runSingle_append (env : Env) (cfg : Config) (svc : Service)
    (xs ys : List (Observation × Int)) (st : Store) :
    runSingle env cfg svc (xs ++ ys) st =
      ((runSingle env cfg svc ys (runSingle env cfg svc xs st).1).1,
        (runSingle env cfg svc xs st).2
          ++ (runSingle env cfg svc ys (runSingle env cfg svc xs st).1).2) := by
  induction xs generalizing st with
  | nil => simp [runSingle]
  | cons x rest ih =>
    obtain ⟨o, t⟩ := x
    simp [runSingle, ih]

theorem reconcileIncident_no_resolve (env : Env) (svc : Service) (o : Observation)
    (now : Int) (st : Store) :
    countResolveAny (reconcileIncident env svc o now st).sent = 0 := by
  unfold reconcileIncident
  simp only
  split
  · rfl
  · split
    · split
      · simp [countResolveAny, startMessage]
      · rfl
    · rfl

theorem reconcileUnknown_sent (cfg : Config) (now : Int) (st : Store) :
    (reconcileUnknown cfg now st).sent = [] := rfl

theorem hasStarted_readBack_operational :
    hasStarted (readBack { state := "operational", incidentId := none }) = false := by
  decide

/-- With nothing tracked, an operational observation is silent and nothing is
tracked afterwards. -/
theorem reconcileOperational_quiet (env : Env) (svc : Service) (now : Int) (st : Store)
    (hq : hasStarted st.persisted = false) :
    (reconcileOperational env svc now st).sent = [] ∧
      hasStarted (reconcileOperational env svc now st).store.persisted = false := by
  have hk : truthy (trackedStartKey env st.persisted) = false := by
    simp only [hasStarted, Bool.or_eq_false_iff] at hq
    simp [trackedStartKey, truthy_orElse, truthy_tsKeyOf, hq.1.1, hq.1.2]
  have hw : startWasNotified env st.persisted = false := by
    simp [startWasNotified, hk]
  unfold reconcileOperational
  simp only [hq, hw, Bool.false_and, Bool.false_eq_true, if_false, if_true]
  exact ⟨trivial, hasStarted_readBack_operational⟩

/-- An operational observation sends at most one resolve, and after a send
nothing is tracked any more. -/
theorem reconcileOperational_resolve (env : Env) (svc : Service) (now : Int) (st : Store) :
    countResolveAny (reconcileOperational env svc now st).sent ≤ 1 ∧
      ((reconcileOperational env svc now st).sent ≠ [] →
        hasStarted (reconcileOperational env svc now st).store.persisted = false) := by
  unfold reconcileOperational
  simp only
  split
  · split
    · refine ⟨by simp [countResolveAny, resolveMessage], fun _ => ?_⟩
      simp [setPersistedState, readBack, hasStarted, orNull, truthy]
    · exact ⟨by simp [countResolveAny], fun h => absurd rfl h⟩
  · split
    · exact ⟨by simp [countResolveAny], fun h => absurd rfl h⟩
    · exact ⟨by simp [countResolveAny], fun h => absurd rfl h⟩

theorem runSingle_operational_quiet (env : Env) (cfg : Config) (svc : Service)
    (ops : List (Observation × Int)) (st : Store)
    (hop : ∀ x ∈ ops, x.1.state = "operational")
    (hq : hasStarted st.persisted = false) :
    countResolveAny (allSent (runSingle env cfg svc ops st)) = 0 := by
  induction ops generalizing st with
  | nil => rfl
  | cons x rest ih =>
    obtain ⟨o, t⟩ := x
    have ho : o.state = "operational" := hop (o, t) (List.mem_cons_self _ _)
    have hstep : reconcile env cfg svc o t st = reconcileOperational env svc t st := by
      simp [reconcile, ho]
    have h := reconcileOperational_quiet env svc t st hq
    simp only [runSingle, hstep]
    rw [allSent_cons _ (runSingle env cfg svc rest (reconcileOperational env svc t st).store).1,
      allSent_eta, countResolveAny_append, h.1,
      ih _ (fun y hy => hop y (List.mem_cons_of_mem _ hy)) h.2]
    rfl

theorem runSingle_operational_resolve (env : Env) (cfg : Config) (svc : Service)
    (ops : List (Observation × Int)) (st : Store)
    (hop : ∀ x ∈ ops, x.1.state = "operational") :
    countResolveAny (allSent (runSingle env cfg svc ops st)) ≤ 1 := by
  induction ops generalizing st with
  | nil => simp [runSingle, allSent, countResolveAny]
  | cons x rest ih =>
    obtain ⟨o, t⟩ := x
    have ho : o.state = "operational" := hop (o, t) (List.mem_cons_self _ _)
    have hstep : reconcile env cfg svc o t st = reconcileOperational env svc t st := by
      simp [reconcile, ho]
    have hrest : ∀ y ∈ rest, y.1.state = "operational" :=
      fun y hy => hop y (List.mem_cons_of_mem _ hy)
    have h := reconcileOperational_resolve env svc t st
    simp only [runSingle, hstep]
    rw [allSent_cons _ (runSingle env cfg svc rest (reconcileOperational env svc t st).store).1,
      allSent_eta, countResolveAny_append]
    by_cases hs : (reconcileOperational env svc t st).sent = []
    · have := ih (reconcileOperational env svc t st).store hrest
      rw [hs]
      simpa [countResolveAny] using this
    · have := runSingle_operational_quiet env cfg svc rest _ hrest (h.2 hs)
      omega

theorem runSingle_incident_no_resolve (env : Env) (cfg : Config) (svc : Service)
    (incs : List (Observation × Int)) (st : Store)
    (hinc : ∀ x ∈ incs, x.1.state = "incident") :
    countResolveAny (allSent (runSingle env cfg svc incs st)) = 0 := by
  induction incs generalizing st with
  | nil => rfl
  | cons x rest ih =>
    obtain ⟨o, t⟩ := x
    have ho : o.state = "incident" := hinc (o, t) (List.mem_cons_self _ _)
    have hstep : reconcile env cfg svc o t st = reconcileIncident env svc o t st := by
      simp [reconcile, ho]
    simp only [runSingle, hstep]
    rw [allSent_cons _ (runSingle env cfg svc rest (reconcileIncident env svc o t st).store).1,
      allSent_eta, countResolveAny_append, reconcileIncident_no_resolve,
      ih _ (fun y hy => hinc y (List.mem_cons_of_mem _ hy))]

/-- C4: from a store with no persisted state and no suppression record, one or
more incident observations followed by one or more consecutive operational
observations produce at most one resolve notification in total, however many
operational observations there are and whatever the clock readings. -/
theorem resolve_at_most_once (env : Env) (cfg : Config) (svc : Service)
    (incs ops : List (Observation × Int)) (_hi : incs ≠ []) (_ho : ops ≠ [])
    (hinc : ∀ x ∈ incs, x.1.state = "incident")
    (hop : ∀ x ∈ ops, x.1.state = "operational") :
    countResolveAny (allSent (runSingle env cfg svc (incs ++ ops) freshStore)) ≤ 1 := by
  have h1 := runSingle_incident_no_resolve env cfg svc incs freshStore hinc
  have h2 := runSingle_operational_resolve env cfg svc ops
    (runSingle env cfg svc incs freshStore).1 hop
  rw [runSingle_append]
  simp only [allSent, List.flatten_append] at h1 h2 ⊢
  rw [countResolveAny_append]
  omega

/-! ## Scenario A -/

/-- An approved resolve candidate. -/
theorem reconcileOperational_approved (env : Env) (svc : Service) (now : Int) (st : Store)
    (hh : hasStarted st.persisted = true) (hr : resolveNotSent env st.persisted = true)
    (hns : notSuppressed st (getDedupeKey svc ++ ":resolve")
      ("resolve:" ++ orEmpty (orNull (trackedStartKey env st.persisted))) now = true) :
    (reconcileOperational env svc now st).sent = [resolveMessage env svc st.persisted now] := by
  unfold reconcileOperational
  simp [hh, hr, hns]

/-- C8: scenario A from a fresh store. Two identical critical incident
observations with onset `T0` followed by an operational observation give one
start notification at step 1 (red-circle marker, `T0` as start time), nothing
at step 2 and one resolve notification at step 3. The clock is assumed to read
at least one suppression window past the epoch at steps 1 and 3. -/
theorem scenarioA (env : Env) (cfg : Config) (svc : Service) (T0 : String)
    (ttl iid : Option String) (t1 t2 t3 : Int) (hT : T0 ≠ "")
    (h1 : suppressWindowMs ≤ t1) (h3 : suppressWindowMs ≤ t3) :
    (runSingle env cfg svc
      [(criticalIncident T0 ttl iid, t1), (criticalIncident T0 ttl iid, t2),
        (obsOperational, t3)] freshStore).2 =
      [[{ direction := Direction.start,
          identity := incidentStartKeyOf env (criticalIncident T0 ttl iid) defaultState t1,
          text := startText svc ":red_circle:"
            (orEmpty (orElse ttl (some "Incident detected"))) (env.toLocaleString T0) }],
        [],
        [{ direction := Direction.resolve,
           identity := incidentStartKeyOf env (criticalIncident T0 ttl iid) defaultState t1,
           text := resolveText svc (env.toLocaleString T0) (env.nowLocaleString t3) }]] := by
  generalize ho : criticalIncident T0 ttl iid = o
  have hos : o.state = "incident" := by rw [← ho]; rfl
  have hosev : o.severity = some "critical" := by rw [← ho]; rfl
  have hott : o.title = ttl := by rw [← ho]; rfl
  have host : o.startedAt = some T0 := by rw [← ho]; rfl
  have hTt : truthy (some T0) = true := (truthy_some _).mpr hT
  have hfp : freshStore.persisted = defaultState := rfl
  have hk := truthy_incidentStartKeyOf env o defaultState t1
  have hsa : ∀ p now, incidentStartedAt env o p now = some T0 := by
    intro p now
    simp [incidentStartedAt, host, orElse_of_truthy _ hTt]
  have hstep1 : reconcile env cfg svc o t1 freshStore
      = reconcileIncident env svc o t1 freshStore := by
    simp [reconcile, hos]
  have hfirst := reconcileIncident_first env svc o t1 freshStore rfl rfl rfl h1
  rw [hfp] at hfirst
  have hstep2 : ∀ st, reconcile env cfg svc o t2 st = reconcileIncident env svc o t2 st := by
    intro st
    simp [reconcile, hos]
  have hstep3 : ∀ st, reconcile env cfg svc obsOperational t3 st
      = reconcileOperational env svc t3 st := by
    intro st
    simp [reconcile, obsOperational]
  simp only [runSingle, hstep1, hfirst, hstep2, hstep3]
  rw [reconcileIncident_hardGuard env svc o t2 _ (by simp [setPersistedState, readBack])
    (by simp [setPersistedState, readBack, orNull_of_truthy hk, hk])]
  simp only [hsa]
  rw [reconcileOperational_approved]
  · simp [startMessage, resolveMessage, severityEmoji, hosev, hott, hsa, setPersistedState,
      readBack, trackedStartKey, orNull_of_truthy hk, orElse_of_truthy _ hk,
      orNull_of_truthy hTt, orEmpty]
  · simp [hasStarted, setPersistedState, readBack]
  · simp [resolveNotSent, setPersistedState, readBack, orNull, truthy]
  · apply notSuppressed_fresh
    · simp [setPersistedState, setLastSignature, setLastNotifiedTs, freshStore,
        (start_sigKey_ne_resolve_sigKey (getDedupeKey svc)).symm]
    · simp [setPersistedState, setLastSignature, setLastNotifiedTs, freshStore,
        (start_sigKey_ne_resolve_sigKey (getDedupeKey svc)).symm]
    · exact append_ne_empty _ _ (by decide)
    · exact h3

/-! ## Scenario B -/

/-- C7 (as amended): scenario B from a fresh store. For two consecutive
incident observations whose onsets `T0` and `T1` parse to different timestamps,
with no operational observation in between, exactly one start notification is
sent, at step 1 and for the key of `T0`; step 2 is absorbed by the hard guard
and sends nothing. -/
theorem scenarioB_one_start (env : Env) (cfg : Config) (svc : Service)
    (o0 o1 : Observation) (T0 T1 : String) (a b : Int) (t0 t1 : Int)
    (h0 : o0.state = "incident") (h1 : o1.state = "incident")
    (hs0 : o0.startedAt = some T0) (_hs1 : o1.startedAt = some T1)
    (hT0 : T0 ≠ "") (_hT1 : T1 ≠ "")
    (hp0 : env.dateParse T0 = some a) (_hp1 : env.dateParse T1 = some b) (_hab : a ≠ b)
    (hclock : suppressWindowMs ≤ t0) :
    (runSingle env cfg svc [(o0, t0), (o1, t1)] freshStore).2
        = [[startMessage env svc o0 defaultState t0], []] ∧
      (startMessage env svc o0 defaultState t0).identity = some ("ts:" ++ toString a) ∧
      countStartAny (allSent (runSingle env cfg svc [(o0, t0), (o1, t1)] freshStore)) = 1 := by
  have hstep : reconcile env cfg svc o0 t0 freshStore
      = reconcileIncident env svc o0 t0 freshStore := by
    simp [reconcile, h0]
  have hfp : freshStore.persisted = defaultState := rfl
  have hfirst := reconcileIncident_first env svc o0 t0 freshStore rfl rfl rfl hclock
  rw [hfp] at hfirst
  have ht := truthy_incidentStartKeyOf env o0 defaultState t0
  have hrun : (runSingle env cfg svc [(o0, t0), (o1, t1)] freshStore).2
      = [[startMessage env svc o0 defaultState t0], []] := by
    simp only [runSingle, hstep, hfirst]
    have hg := runSingle_hardGuard env cfg svc [(o1, t1)]
      (setPersistedState
        (setLastSignature (setLastNotifiedTs freshStore (getDedupeKey svc ++ ":start") t0)
          (getDedupeKey svc ++ ":start")
          ("start:" ++ orEmpty (incidentStartKeyOf env o0 defaultState t0)))
        { state := "incident"
          startedAt := incidentStartedAt env o0 defaultState t0
          startKey := incidentStartKeyOf env o0 defaultState t0
          lastNotifiedStartAt := incidentStartedAt env o0 defaultState t0
          lastNotifiedStartKey := incidentStartKeyOf env o0 defaultState t0
          lastNotifiedResolveAt := none
          lastNotifiedResolveKey := none
          lastNonIncidentTs := 0
          incidentId := orElse (currentIncidentId o0) defaultState.incidentId })
      (by simpa using h1)
      (by simp [setPersistedState, readBack])
      (by simp [setPersistedState, readBack, orNull_of_truthy ht, ht])
    simp only [runSingle] at hg
    rw [hg]
    rfl
  have hT : truthy (some T0) = true := (truthy_some _).mpr hT0
  have hcur : currentIncidentKey env o0 = some ("ts:" ++ toString a) := by
    simp [currentIncidentKey, currentStartedAtMs, hs0, hT, hp0, orEmpty]
  refine ⟨hrun, ?_, ?_⟩
  · simp only [startMessage]
    rw [orNull_of_truthy ht]
    unfold incidentStartKeyOf
    rw [hcur]
    exact orElse_of_truthy _ ((truthy_some _).mpr (append_ne_empty _ _ (by decide)))
  · simp [allSent, hrun, countStartAny, startMessage]

/-! ## Operational observations without a recorded start -/

/-- C5 (as amended): when no start notification is recorded for the tracked
incident and no unresolved incident is tracked (nothing has started, or the
resolve of the tracked incident is already on record), an operational
observation sends nothing and only transitions the persisted state to
operational. -/
theorem operational_silent_without_start (env : Env) (cfg : Config) (svc : Service)
    (o : Observation) (now : Int) (st : Store) (ho : o.state = "operational")
    (hstart : truthy st.persisted.lastNotifiedStartKey = false ∨
      st.persisted.lastNotifiedStartKey ≠ trackedStartKey env st.persisted)
    (hres : hasStarted st.persisted = false ∨ resolveNotSent env st.persisted = false) :
    (reconcile env cfg svc o now st).sent = [] ∧
      (reconcile env cfg svc o now st).store.persisted
        = readBack { state := "operational", incidentId := none } ∧
      (reconcile env cfg svc o now st).store.persisted.state = "operational" ∧
      (reconcile env cfg svc o now st).store.sig = st.sig ∧
      (reconcile env cfg svc o now st).store.notifyTs = st.notifyTs := by
  have hstep : reconcile env cfg svc o now st = reconcileOperational env svc now st := by
    simp [reconcile, ho]
  have hc : (hasStarted st.persisted && resolveNotSent env st.persisted) = false := by
    rcases hres with h | h <;> simp [h]
  have hw : startWasNotified env st.persisted = false := by
    rcases hstart with h | h
    · simp [startWasNotified, h]
    · simp [startWasNotified, h]
  rw [hstep]
  unfold reconcileOperational
  simp only [hc, hw, Bool.false_eq_true, if_false, if_true]
  exact ⟨trivial, rfl, rfl, rfl, rfl⟩

/-! ## Suppression window -/

theorem notSuppressed_recent (st : Store) (key v : String) (now t : Int)
    (hts : st.notifyTs key = t) (hlt : now - t < suppressWindowMs) :
    notSuppressed st key v now = false := by
  simp only [notSuppressed, hts, Bool.and_eq_false_iff, decide_eq_false_iff_not]
  right
  omega

theorem reconcileIncident_sent_stamp (env : Env) (svc : Service) (o : Observation)
    (now : Int) (st : Store) (h : (reconcileIncident env svc o now st).sent ≠ []) :
    (reconcileIncident env svc o now st).sent.length = 1 ∧
      (reconcileIncident env svc o now st).store.notifyTs (getDedupeKey svc ++ ":start")
        = now := by
  unfold reconcileIncident at h ⊢
  simp only at h ⊢
  split
  · rename_i hg
    simp [hg] at h
  · rename_i hg
    simp only [if_neg hg] at h
    split
    · rename_i hc
      simp only [hc, if_true] at h
      split
      · simp [setPersistedState, setLastSignature, setLastNotifiedTs]
      · rename_i hns
        simp [hns] at h
    · rename_i hc
      simp [hc] at h

theorem reconcileIncident_suppressed (env : Env) (svc : Service) (o : Observation)
    (now t : Int) (st : Store) (hts : st.notifyTs (getDedupeKey svc ++ ":start") = t)
    (hlt : now - t < suppressWindowMs) :
    (reconcileIncident env svc o now st).sent = [] := by
  unfold reconcileIncident
  simp only [notSuppressed_recent st _ _ now t hts hlt]
  split
  · rfl
  · split
    · simp
    · rfl

theorem reconcileOperational_sent_stamp (env : Env) (svc : Service) (now : Int)
    (st : Store) (h : (reconcileOperational env svc now st).sent ≠ []) :
    (reconcileOperational env svc now st).sent.length = 1 ∧
      (reconcileOperational env svc now st).store.notifyTs (getDedupeKey svc ++ ":resolve")
        = now := by
  unfold reconcileOperational at h ⊢
  simp only at h ⊢
  split
  · rename_i hc
    simp only [hc, if_true] at h
    split
    · simp [setPersistedState, setLastSignature, setLastNotifiedTs]
    · rename_i hns
      simp [hns] at h
  · rename_i hc
    simp only [hc] at h
    split
    · rename_i hw
      simp [hw] at h
    · rename_i hw
      simp [hw] at h

theorem reconcileOperational_suppressed (env : Env) (svc : Service) (now t : Int)
    (st : Store) (hts : st.notifyTs (getDedupeKey svc ++ ":resolve") = t)
    (hlt : now - t < suppressWindowMs) :
    (reconcileOperational env svc now st).sent = [] := by
  unfold reconcileOperational
  simp only [notSuppressed_recent st _ _ now t hts hlt]
  split
  · simp
  · split
    · rfl
    · rfl

/-- C9: if a single-incident step at time `now` approves a notification and
leaves the suppression records `S'`, then the same step run again on the same
stale persisted state and the same observation, but with `S'`, at any time in
`[now, now + 120 s)`, approves nothing: of the two overlapping invocations
exactly one notification is approved. -/
theorem suppression_window_blocks_overlap (env : Env) (cfg : Config) (svc : Service)
    (o : Observation) (now now2 : Int) (st : Store)
    (hsent : (reconcile env cfg svc o now st).sent ≠ [])
    (_hge : now ≤ now2) (hlt : now2 < now + suppressWindowMs) :
    (reconcile env cfg svc o now st).sent.length = 1 ∧
      (reconcile env cfg svc o now2
        { persisted := st.persisted
          notifyTs := (reconcile env cfg svc o now st).store.notifyTs
          sig := (reconcile env cfg svc o now st).store.sig }).sent = [] := by
  unfold reconcile at hsent ⊢
  by_cases hi : o.state = "incident"
  · simp only [hi, if_true] at hsent ⊢
    have h := reconcileIncident_sent_stamp env svc o now st hsent
    exact ⟨h.1, reconcileIncident_suppressed env svc o now2 now _ h.2 (by omega)⟩
  · simp only [hi, if_false] at hsent ⊢
    by_cases hop : o.state = "operational"
    · simp only [hop, if_true] at hsent ⊢
      have h := reconcileOperational_sent_stamp env svc now st hsent
      exact ⟨h.1, reconcileOperational_suppressed env svc now2 now _ h.2 (by omega)⟩
    · simp only [hop, if_false] at hsent
      exact absurd (reconcileUnknown_sent cfg now st) hsent

/-! ## Grace reset -/

/-- C10 (as amended): for a persisted state with `state = incident` and a
non-zero `lastNonIncidentTs` that is at least `RESET_UNKNOWN_MINUTES` minutes
old, the step on an unknown observation leaves the persisted state operational
(with `lastNonIncidentTs = now`) and sends nothing. -/
theorem grace_reset_on_unknown (env : Env) (cfg : Config) (svc : Service)
    (o : Observation) (now : Int) (st : Store)
    (ho1 : o.state ≠ "incident") (ho2 : o.state ≠ "operational")
    (hs : st.persisted.state = "incident") (hne : st.persisted.lastNonIncidentTs ≠ 0)
    (hel : now - st.persisted.lastNonIncidentTs ≥ cfg.resetUnknownMinutes * 60 * 1000) :
    (reconcile env cfg svc o now st).sent = [] ∧
      (reconcile env cfg svc o now st).store.persisted.state = "operational" ∧
      (reconcile env cfg svc o now st).store.persisted
        = { state := "operational", lastNonIncidentTs := now } := by
  simp [reconcile, ho1, ho2, reconcileUnknown, hs, hne, hel, setPersistedState, readBack,
    orNull, truthy]

/-! ## Evaluations on concrete inputs -/

/-- C1: on the polls incident(`T0`), operational, incident(`T1`), operational,
incident(`T0`), spaced 200 s apart, from a fresh store, the single-incident
steps send two start notifications for the same start key `ts:1000`. -/
theorem start_sent_twice_for_same_key :
    countFor Direction.start "ts:1000"
      (allSent (runSingle sampleEnv {} firebase churnPolls freshStore)) = 2 := by
  decide

/-- C6: scenario C from a fresh store, with A and B of distinct start keys.
Cycle 1 sends two start notifications, but its second state write drops the
key of A, so cycle 2 (active set `[B]`) sends nothing and no resolve for A is
ever sent; cycle 3 resolves B and cycle 4 is silent with state operational. -/
theorem scenarioC_resolve_of_A_missing :
    incidentStartKey sampleEnv incidentA = some "ts:1000" ∧
      incidentStartKey sampleEnv incidentB = some "ts:2000" ∧
      (runMulti sampleEnv sentry scenarioCCycles freshStore).2.map List.length
        = [2, 0, 1, 0] ∧
      (runMulti sampleEnv sentry [([incidentA, incidentB], 200000)]
        freshStore).1.persisted.notifiedStartKeys = ["ts:2000"] ∧
      countFor Direction.resolve "ts:1000"
        (allSent (runMulti sampleEnv sentry scenarioCCycles freshStore)) = 0 ∧
      (runMulti sampleEnv sentry scenarioCCycles freshStore).1.persisted.state
        = "operational" := by
  decide

/-- C7 (counterexample): with onsets `T0` and `T1` parsing to different
timestamps, the two consecutive incident observations give one start
notification, not two. -/
theorem scenarioB_not_two_starts :
    sampleEnv.dateParse "T0" ≠ sampleEnv.dateParse "T1" ∧
      countStartAny (allSent (runSingle sampleEnv {} firebase
        [(obsT0, 200000), (obsT1, 400000)] freshStore)) = 1 ∧
      countStartAny (allSent (runSingle sampleEnv {} firebase
        [(obsT0, 200000), (obsT1, 400000)] freshStore)) ≠ 2 := by
  decide

/-- C5 (counterexample): the record tracks incident `ts:1000` and no start
notification is on record, yet the operational observation sends a resolve. -/
theorem resolve_sent_without_start_on_record :
    untoldIncidentStore.persisted.lastNotifiedStartKey = none ∧
      countResolveAny
        (reconcile sampleEnv {} firebase obsOperational 200000 untoldIncidentStore).sent
        = 1 := by
  decide

/-- C10 (counterexample): right after a start notification the record has
`state = incident` and `lastNonIncidentTs = 0`; an unknown observation more
than 60 minutes later leaves the state at incident. -/
theorem grace_reset_skipped_at_zero :
    (runSingle sampleEnv {} firebase [(obsT0, 200000)] freshStore).1.persisted.state
        = "incident" ∧
      (runSingle sampleEnv {} firebase [(obsT0, 200000)]
        freshStore).1.persisted.lastNonIncidentTs = 0 ∧
      (4000000 : Int) - 0 ≥ ({} : Config).resetUnknownMinutes * 60 * 1000 ∧
      (reconcile sampleEnv {} firebase obsUnknown 4000000
        (runSingle sampleEnv {} firebase [(obsT0, 200000)] freshStore).1).store.persisted.state
        = "incident" := by
  decide

/-! ## The theorems applied to concrete inputs -/

/-- C3 applied to three polls of the same critical incident `T0`. -/
theorem start_exactly_on_first_step_witness :
    currentIncidentKey sampleEnv obsT0 = some "ts:1000" ∧
      (runSingle sampleEnv {} firebase
        [(obsT0, 200000), (obsT0, 500000), (obsT0, 800000)] freshStore).2
        = [[startMessage sampleEnv firebase obsT0 defaultState 200000], [], []] ∧
      (startMessage sampleEnv firebase obsT0 defaultState 200000).identity
        = some "ts:1000" :=
  have h := start_exactly_on_first_step sampleEnv {} firebase obsT0 200000
    [(obsT0, 500000), (obsT0, 800000)] (some "ts:1000")
    (by decide) (by decide) (by decide)
  ⟨by decide, h.1, h.2.2 (by decide)⟩

/-- C4 applied to one incident poll followed by two operational polls. -/
theorem resolve_at_most_once_witness :
    countResolveAny (allSent (runSingle sampleEnv {} firebase
      ([(obsT0, 200000)] ++ [(obsOperational, 400000), (obsOperational, 600000)])
      freshStore)) ≤ 1 :=
  resolve_at_most_once sampleEnv {} firebase [(obsT0, 200000)]
    [(obsOperational, 400000), (obsOperational, 600000)]
    (by decide) (by decide) (by decide) (by decide)

/-- C5 (as amended) applied to a record whose resolve is already on record. -/
theorem operational_silent_without_start_witness :
    resolveNotSent sampleEnv resolvedIncidentStore.persisted = false ∧
      (reconcile sampleEnv {} firebase obsOperational 200000 resolvedIncidentStore).sent = [] ∧
      (reconcile sampleEnv {} firebase obsOperational 200000
        resolvedIncidentStore).store.persisted.state = "operational" :=
  have h := operational_silent_without_start sampleEnv {} firebase obsOperational 200000
    resolvedIncidentStore rfl (Or.inl rfl) (Or.inr (by decide))
  ⟨by decide, h.1, h.2.2.1⟩

/-- C7 (as amended) applied to onsets `T0` and `T1`. -/
theorem scenarioB_one_start_witness :
    (runSingle sampleEnv {} firebase [(obsT0, 200000), (obsT1, 400000)] freshStore).2
        = [[startMessage sampleEnv firebase obsT0 defaultState 200000], []] ∧
      (startMessage sampleEnv firebase obsT0 defaultState 200000).identity
        = some ("ts:" ++ toString (1000 : Int)) ∧
      countStartAny (allSent (runSingle sampleEnv {} firebase
        [(obsT0, 200000), (obsT1, 400000)] freshStore)) = 1 :=
  scenarioB_one_start sampleEnv {} firebase obsT0 obsT1 "T0" "T1" 1000 2000 200000 400000
    rfl rfl rfl rfl (by decide) (by decide) rfl rfl (by decide) (by decide)

/-- C8 applied to onset `T0` with polls 200 s apart. -/
theorem scenarioA_witness :
    (runSingle sampleEnv {} firebase
      [(criticalIncident "T0" (some "API down") none, 200000),
        (criticalIncident "T0" (some "API down") none, 400000),
        (obsOperational, 600000)] freshStore).2 =
      [[{ direction := Direction.start,
          identity := incidentStartKeyOf sampleEnv
            (criticalIncident "T0" (some "API down") none) defaultState 200000,
          text := startText firebase ":red_circle:"
            (orEmpty (orElse (some "API down") (some "Incident detected")))
            (sampleEnv.toLocaleString "T0") }],
        [],
        [{ direction := Direction.resolve,
           identity := incidentStartKeyOf sampleEnv
            (criticalIncident "T0" (some "API down") none) defaultState 200000,
           text := resolveText firebase (sampleEnv.toLocaleString "T0")
            (sampleEnv.nowLocaleString 600000) }]] :=
  scenarioA sampleEnv {} firebase "T0" (some "API down") none 200000 400000 600000
    (by decide) (by decide) (by decide)

/-- C9 applied to a second invocation 60 s after the first. -/
theorem suppression_window_blocks_overlap_witness :
    (reconcile sampleEnv {} firebase obsT0 200000 freshStore).sent.length = 1 ∧
      (reconcile sampleEnv {} firebase obsT0 260000
        { persisted := freshStore.persisted
          notifyTs := (reconcile sampleEnv {} firebase obsT0 200000 freshStore).store.notifyTs
          sig := (reconcile sampleEnv {} firebase obsT0 200000 freshStore).store.sig }).sent
        = [] :=
  suppression_window_blocks_overlap sampleEnv {} firebase obsT0 200000 260000 freshStore
    (by decide) (by decide) (by decide)

/-- C10 (as amended) applied to a record last seen non-incident at 300 s. -/
theorem grace_reset_on_unknown_witness :
    (reconcile sampleEnv {} firebase obsUnknown 4000000 staleIncidentStore).sent = [] ∧
      (reconcile sampleEnv {} firebase obsUnknown 4000000
        staleIncidentStore).store.persisted.state = "operational" ∧
      (reconcile sampleEnv {} firebase obsUnknown 4000000 staleIncidentStore).store.persisted
        = { state := "operational", lastNonIncidentTs := 4000000 } :=
  grace_reset_on_unknown sampleEnv {} firebase obsUnknown 4000000 staleIncidentStore
    (by decide) (by decide) rfl (by decide) (by decide)

/-! ## Dedupe key -/

theorem toUpper_eq_slash_iff (c : Char) : Char.toUpper c = '/' ↔ c = '/' := by
  constructor
  · intro h
    unfold Char.toUpper at h
    simp only at h
    split at h
    · rename_i hr
      exfalso
      generalize c.toNat = n at h hr
      obtain ⟨h1, h2⟩ := hr
      interval_cases n <;> exact absurd h (by decide)
    · exact h
  · intro h
    subst h
    decide

theorem toLower_eq_slash_iff (c : Char) : Char.toLower c = '/' ↔ c = '/' := by
  constructor
  · intro h
    unfold Char.toLower at h
    simp only at h
    split at h
    · rename_i hr
      exfalso
      generalize c.toNat = n at h hr
      obtain ⟨h1, h2⟩ := hr
      interval_cases n <;> exact absurd h (by decide)
    · exact h
  · intro h
    subst h
    decide

theorem toLower_toUpper (c : Char) : Char.toLower (Char.toUpper c) = Char.toLower c := by
  by_cases hr : c.toNat ≥ 97 ∧ c.toNat ≤ 122
  · have hc : c = Char.ofNat c.toNat := (Char.ofNat_toNat c).symm
    generalize c.toNat = n at hr hc
    subst hc
    obtain ⟨h1, h2⟩ := hr
    interval_cases n <;> decide
  · have : Char.toUpper c = c := by
      unfold Char.toUpper
      simp only [hr, if_false]
    rw [this]

theorem getDedupeKey_eq (svc : Service) :
    getDedupeKey svc = toLowerCase
      (if (dedupeBase svc).data.getLast? = some '/' then String.mk (dedupeBase svc).data.dropLast
        else dedupeBase svc) := rfl

theorem dedupeBase_urlOnly (u : String) : dedupeBase (urlOnly u) = u := by
  by_cases h : u = ""
  · subst h
    rfl
  · have : truthy (some u) = true := (truthy_some u).mpr h
    simp [dedupeBase, urlOnly, this, orEmpty]

theorem getDedupeKey_urlOnly_of_no_slash (u : String) (h : u.data.getLast? ≠ some '/') :
    getDedupeKey (urlOnly u) = toLowerCase u := by
  rw [getDedupeKey_eq, dedupeBase_urlOnly, if_neg h]

theorem getDedupeKey_urlOnly_slash (u : String) :
    getDedupeKey (urlOnly (u ++ "/")) = toLowerCase u := by
  have hd : (u ++ "/").data = u.data ++ ['/'] := by
    rw [String.data_append]
  rw [getDedupeKey_eq, dedupeBase_urlOnly, hd, List.getLast?_concat, if_pos rfl,
    List.dropLast_concat]

theorem upperChar_of_ascii (c : Char) (h : c.toNat < 128) : upperChar c = [Char.toUpper c] := by
  unfold upperChar
  rw [if_neg]
  omega

theorem flatMap_upperChar_of_ascii (l : List Char)
    (h : l.all (fun c => decide (c.toNat < 128)) = true) :
    l.flatMap upperChar = l.map Char.toUpper := by
  induction l with
  | nil => rfl
  | cons c cs ih =>
    simp only [List.all_cons, Bool.and_eq_true, decide_eq_true_eq] at h
    rw [List.flatMap_cons, upperChar_of_ascii c h.1, ih h.2]
    rfl

theorem toUpperCase_of_isAscii (u : String) (h : isAscii u = true) :
    toUpperCase u = String.mk (u.data.map Char.toUpper) := by
  unfold toUpperCase
  rw [flatMap_upperChar_of_ascii u.data h]

theorem toLowerCase_toUpperCase (u : String) (ha : isAscii u = true) :
    toLowerCase (toUpperCase u) = toLowerCase u := by
  rw [toUpperCase_of_isAscii u ha]
  simp only [toLowerCase, List.map_map]
  congr 1
  apply List.map_congr_left
  intro c _
  exact toLower_toUpper c

theorem toUpperCase_no_slash (u : String) (ha : isAscii u = true)
    (h : u.data.getLast? ≠ some '/') :
    (toUpperCase u).data.getLast? ≠ some '/' := by
  rw [toUpperCase_of_isAscii u ha]
  simp only [List.getLast?_map]
  intro h1
  cases hl : u.data.getLast? with
  | none => simp [hl] at h1
  | some c =>
    rw [hl] at h1 h
    simp only [Option.map_some', Option.some.injEq] at h1
    exact h (by rw [(toUpper_eq_slash_iff c).mp h1])

/-- C14 (counterexample): the status URL `straße` does not end in `/`, its
upper case is `STRASSE`, and the two keys differ: `straße` against `strasse`. -/
theorem getDedupeKey_differs_on_sharp_s :
    endsWithSlash "straße" = false ∧
      toUpperCase "straße" = "STRASSE" ∧
      getDedupeKey (urlOnly "straße") = "straße" ∧
      getDedupeKey (urlOnly (toUpperCase "straße")) = "strasse" ∧
      getDedupeKey (urlOnly "straße") ≠ getDedupeKey (urlOnly (toUpperCase "straße")) := by
  decide

/-- C14 (as amended): `getDedupeKey` is invariant under one trailing slash, and
under letter case on ASCII strings. For every `u` not ending in `/` the keys of
`u/` and of `u` are equal; when moreover every character of `u` is ASCII, the
key of `u` in upper case is the same key; the keys of the three example
addresses are equal; and a non-empty status URL is used whatever the name. -/
theorem getDedupeKey_case_and_slash_invariant :
    (∀ u : String, endsWithSlash u = false →
      getDedupeKey (urlOnly (u ++ "/")) = getDedupeKey (urlOnly u)) ∧
    (∀ u : String, endsWithSlash u = false → isAscii u = true →
      getDedupeKey (urlOnly u) = getDedupeKey (urlOnly (toUpperCase u))) ∧
    (getDedupeKey (urlOnly "https://status.example.com/")
        = getDedupeKey (urlOnly "https://status.example.com") ∧
      getDedupeKey (urlOnly "https://status.example.com")
        = getDedupeKey (urlOnly "HTTPS://STATUS.EXAMPLE.COM")) ∧
    (∀ svc : Service, truthy svc.statusUrl = true →
      getDedupeKey svc = getDedupeKey (urlOnly (orEmpty svc.statusUrl))) := by
  refine ⟨?_, ?_, ⟨by decide, by decide⟩, ?_⟩
  · intro u hu
    have h : u.data.getLast? ≠ some '/' := by
      simpa [endsWithSlash] using hu
    rw [getDedupeKey_urlOnly_slash, getDedupeKey_urlOnly_of_no_slash u h]
  · intro u hu ha
    have h : u.data.getLast? ≠ some '/' := by
      simpa [endsWithSlash] using hu
    rw [getDedupeKey_urlOnly_of_no_slash u h,
      getDedupeKey_urlOnly_of_no_slash _ (toUpperCase_no_slash u ha h),
      toLowerCase_toUpperCase u ha]
  · intro svc hs
    rw [getDedupeKey_eq, getDedupeKey_eq, dedupeBase_urlOnly]
    simp [dedupeBase, hs]

/-- C14 (as amended) applied to the example address and to the configured
service Firebase. -/
theorem getDedupeKey_case_and_slash_invariant_witness :
    getDedupeKey (urlOnly ("https://status.example.com" ++ "/"))
        = getDedupeKey (urlOnly "https://status.example.com") ∧
      getDedupeKey (urlOnly "https://status.example.com")
        = getDedupeKey (urlOnly (toUpperCase "https://status.example.com")) ∧
      toUpperCase "https://status.example.com" = "HTTPS://STATUS.EXAMPLE.COM" ∧
      getDedupeKey firebase = getDedupeKey (urlOnly (orEmpty firebase.statusUrl)) :=
  ⟨getDedupeKey_case_and_slash_invariant.1 "https://status.example.com" (by decide),
    getDedupeKey_case_and_slash_invariant.2.1 "https://status.example.com" (by decide)
      (by decide),
    by decide,
    getDedupeKey_case_and_slash_invariant.2.2.2 firebase (by decide)⟩

/-- C15 (counterexample): the status URL `https://x//` gives a key that ends
with `/`. -/
theorem getDedupeKey_keeps_second_slash :
    getDedupeKey (urlOnly "https://x//") = "https://x/" ∧
      endsWithSlash (getDedupeKey (urlOnly "https://x//")) = true := by
  decide

theorem endsWithSlash_toLowerCase (s : String) :
    endsWithSlash (toLowerCase s) = endsWithSlash s := by
  simp only [endsWithSlash, toLowerCase, List.getLast?_map]
  cases hl : s.data.getLast? with
  | none => rfl
  | some c =>
    simp only [Option.map_some']
    by_cases hc : c = '/'
    · subst hc
      rfl
    · have h1 : Char.toLower c ≠ '/' := fun h => hc ((toLower_eq_slash_iff c).mp h)
      simp [hc, h1]

/-- C15 (as amended): `getDedupeKey` removes exactly one trailing slash. The
returned string ends with `/` exactly when the string it starts from (status
URL, else name) ends with two slashes; in particular it never ends with `/`
when that string ends with at most one slash. -/
theorem getDedupeKey_strips_one_slash (svc : Service) :
    endsWithSlash (getDedupeKey svc) = true ↔
      ∃ l : List Char, (dedupeBase svc).data = l ++ ['/', '/'] := by
  rw [getDedupeKey_eq, endsWithSlash_toLowerCase]
  by_cases h : (dedupeBase svc).data.getLast? = some '/'
  · rw [if_pos h]
    obtain ⟨l, hl⟩ := List.getLast?_eq_some_iff.mp h
    simp only [endsWithSlash, hl, List.dropLast_concat, beq_iff_eq]
    constructor
    · intro h2
      obtain ⟨m, hm⟩ := List.getLast?_eq_some_iff.mp h2
      exact ⟨m, by rw [hm]; simp⟩
    · rintro ⟨m, hm⟩
      have : l = m ++ ['/'] := by
        have h3 : l ++ ['/'] = (m ++ ['/']) ++ ['/'] := by rw [hm]; simp
        exact List.append_cancel_right h3
      rw [this, List.getLast?_concat]
  · rw [if_neg h]
    simp only [endsWithSlash, beq_iff_eq]
    constructor
    · intro h2
      exact absurd h2 h
    · rintro ⟨m, hm⟩
      exfalso
      apply h
      rw [hm]
      simp

/-! ## Start key derivation -/

theorem specIdKey_eq_idKeyOf (x : Option String) : specIdKey x = idKeyOf x := by
  cases x with
  | none => rfl
  | some i =>
    by_cases h : i = ""
    · subst h
      rfl
    · have : truthy (some i) = true := (truthy_some i).mpr h
      simp [specIdKey, idKeyOf, h, this, orEmpty]

theorem specStartKey_eq (env : Env) (startedAt incidentId : Option String) :
    specStartKey env startedAt incidentId =
      match (if truthy startedAt then env.dateParse (orEmpty startedAt) else none) with
      | some ms => some ("ts:" ++ toString ms)
      | none => idKeyOf incidentId := by
  cases startedAt with
  | none => simp [specStartKey, truthy, specIdKey_eq_idKeyOf]
  | some s =>
    by_cases h : s = ""
    · subst h
      simp [specStartKey, truthy, specIdKey_eq_idKeyOf]
    · have ht : truthy (some s) = true := (truthy_some s).mpr h
      simp only [specStartKey, h, if_false, ht, if_true, orEmpty]
      cases env.dateParse s <;> simp [specIdKey_eq_idKeyOf]

theorem currentIncidentKey_eq (env : Env) (o : Observation) :
    currentIncidentKey env o = specStartKey env o.startedAt (currentIncidentId o) := by
  rw [specStartKey_eq]
  unfold currentIncidentKey currentStartedAtMs
  cases (if truthy o.startedAt then env.dateParse (orEmpty o.startedAt) else none) <;>
    simp [idKeyOf]

theorem currentIncidentId_of_trimmed (o : Observation)
    (h : ∀ i : String, o.incidentId = some i → jsTrim i = i) :
    specIdKey (currentIncidentId o) = specIdKey o.incidentId := by
  unfold currentIncidentId
  cases hi : o.incidentId with
  | none => rfl
  | some i =>
    by_cases he : i = ""
    · subst he
      rfl
    · have ht : truthy (some i) = true := (truthy_some i).mpr he
      simp only [ht, if_true, orEmpty, h i hi]

theorem specStartKey_congr_id (env : Env) (startedAt a b : Option String)
    (h : specIdKey a = specIdKey b) :
    specStartKey env startedAt a = specStartKey env startedAt b := by
  unfold specStartKey
  cases startedAt with
  | none => exact h
  | some s =>
    simp only
    split
    · exact h
    · cases env.dateParse s with
      | none => exact h
      | some ms => rfl

theorem services_type (siteUrl : String) :
    ∀ svc ∈ services siteUrl, svc.type = "statuspage" ∨ svc.type = "local" := by
  simp [services]

theorem normalizeFromLocal_incidentId (payload : Option LocalPayload) :
    (normalizeFromLocal payload).incidentId = none := by
  unfold normalizeFromLocal
  cases payload with
  | none => rfl
  | some d =>
    cases hd : d.state with
    | none => simp [hd]
    | some s => simp [hd]

/-- C13: the start key is `ts:<ms>` when the onset is present and parses to a
finite timestamp, otherwise `id:<identifier>` when the identifier is non-empty,
otherwise null. Every configured service is of type `statuspage` or `local`, so
the observation of the single-incident branch is an output of
`normalizeFromLocal`, and for it `currentIncidentKey` is this derivation from
`startedAt` and `incidentId`; the same holds for any observation whose
`incidentId` has no surrounding whitespace for `trim` to remove. For an active
incident of the multi-incident branch the key is this derivation from the onset
(`started_at`, else `created_at`, else `startedAt`) and `id`. A parseable onset
wins over any identifier. -/
theorem startKey_derivation (env : Env) (siteUrl : String) :
    (∀ svc ∈ services siteUrl, svc.type = "statuspage" ∨ svc.type = "local") ∧
    (∀ (svc : Service) (payload : Option LocalPayload) (summary : Option Summary),
      svc ∈ services siteUrl → svc.type ≠ "statuspage" →
      currentIncidentKey env (currentOf svc payload summary)
        = specStartKey env (currentOf svc payload summary).startedAt
            (currentOf svc payload summary).incidentId) ∧
    (∀ o : Observation, (∀ i : String, o.incidentId = some i → jsTrim i = i) →
      currentIncidentKey env o = specStartKey env o.startedAt o.incidentId) ∧
    (∀ inc : RawIncident,
      incidentStartKey env inc = specStartKey env (incidentStarted inc) inc.id) ∧
    (∀ (s : String) (ms : Int) (i : Option String), s ≠ "" → env.dateParse s = some ms →
      specStartKey env (some s) i = some ("ts:" ++ toString ms)) := by
  have hgen : ∀ o : Observation, (∀ i : String, o.incidentId = some i → jsTrim i = i) →
      currentIncidentKey env o = specStartKey env o.startedAt o.incidentId := by
    intro o h
    rw [currentIncidentKey_eq]
    exact specStartKey_congr_id env o.startedAt _ _ (currentIncidentId_of_trimmed o h)
  refine ⟨services_type siteUrl, ?_, hgen, ?_, ?_⟩
  · intro svc payload summary hs hn
    have hl : svc.type = "local" := by
      rcases services_type siteUrl svc hs with h | h
      · exact absurd h hn
      · exact h
    apply hgen
    intro i hi
    simp only [currentOf, hl, if_true, normalizeFromLocal_incidentId] at hi
    exact absurd hi (by simp)
  · intro inc
    rw [specStartKey_eq]
    unfold incidentStartKey
    simp only
    cases (if truthy (incidentStarted inc) then env.dateParse (orEmpty (incidentStarted inc))
      else none) <;> simp [idKeyOf]
  · intro s ms i hs hp
    simp [specStartKey, hs, hp]

theorem jsTrim_a1 : ∀ i : String, obsWithId.incidentId = some i → jsTrim i = i := by
  intro i hi
  have : i = "a1" := by
    simpa [obsWithId] using hi.symm
  subst this
  decide

/-- C13 applied to Firebase with a payload of onset `T0`, to an observation
with identifier `a1`, to incident A, and to onset `T0` with an identifier. -/
theorem startKey_derivation_witness :
    currentIncidentKey sampleEnv (currentOf firebase (some onsetPayload) none) = some "ts:1000" ∧
      currentIncidentKey sampleEnv obsWithId = some "id:a1" ∧
      incidentStartKey sampleEnv incidentA = some "ts:1000" ∧
      specStartKey sampleEnv (some "T0") (some "a1") = some ("ts:" ++ toString (1000 : Int)) :=
  ⟨((startKey_derivation sampleEnv "").2.1 firebase (some onsetPayload) none
      (by decide) (by decide)).trans (by decide),
    ((startKey_derivation sampleEnv "").2.2.1 obsWithId jsTrim_a1).trans (by decide),
    ((startKey_derivation sampleEnv "").2.2.2.1 incidentA).trans (by decide),
    (startKey_derivation sampleEnv "").2.2.2.2 "T0" 1000 (some "a1") (by decide) rfl⟩

/-! ## Reading the persisted record -/

/-- C17: `getPersistedState` is total, and for a stored value that is absent,
empty, corrupt JSON or JSON `null` (also when the read itself fails) it returns
the default record: state `unknown`, `startedAt`, `startKey` and `incidentId`
null, `lastNonIncidentTs` 0 and every `lastNotified*` field null. -/
theorem getPersistedState_default (jsonParse : String → ParseResult) (read : KvRead)
    (h : read = KvRead.failed ∨ read = KvRead.absent ∨ read = KvRead.value "" ∨
      ∃ text, read = KvRead.value text ∧
        (jsonParse text = ParseResult.syntaxError ∨ jsonParse text = ParseResult.null)) :
    getPersistedState jsonParse read = defaultState ∧
      (getPersistedState jsonParse read).state = "unknown" ∧
      (getPersistedState jsonParse read).startedAt = none ∧
      (getPersistedState jsonParse read).startKey = none ∧
      (getPersistedState jsonParse read).incidentId = none ∧
      (getPersistedState jsonParse read).lastNonIncidentTs = 0 ∧
      (getPersistedState jsonParse read).lastNotifiedStartAt = none ∧
      (getPersistedState jsonParse read).lastNotifiedResolveAt = none ∧
      (getPersistedState jsonParse read).lastNotifiedStartKey = none ∧
      (getPersistedState jsonParse read).lastNotifiedResolveKey = none := by
  have hd : getPersistedState jsonParse read = defaultState := by
    rcases h with h | h | h | ⟨text, h, hp⟩
    · subst h
      rfl
    · subst h
      rfl
    · subst h
      rfl
    · subst h
      unfold getPersistedState
      simp only
      split
      · rfl
      · rcases hp with hp | hp <;> rw [hp]
  rw [hd]
  exact ⟨rfl, rfl, rfl, rfl, rfl, rfl, rfl, rfl, rfl, rfl⟩

/-- C17 applied to a stored text that is not JSON. -/
theorem getPersistedState_default_witness :
    getPersistedState (fun _ => ParseResult.syntaxError) (KvRead.value "state=incident") = defaultState :=
  (getPersistedState_default (fun _ => ParseResult.syntaxError) (KvRead.value "state=incident")
    (Or.inr (Or.inr (Or.inr ⟨"state=incident", rfl, Or.inl rfl⟩)))).1

/-! ## Hard guard -/

theorem truthy_of_readBack_ne_none (x : Option String) (hnf : orNull x = x) (hn : x ≠ none) :
    truthy x = true := by
  by_contra h
  have : orNull x = none := by simp [orNull, h]
  exact hn (hnf ▸ this)

/-- C18: hard guard. For a persisted record (as read back from the store) with
`state = incident` and a non-null `lastNotifiedStartKey`, the step on any
incident observation, with any suppression records and at any time, sends
nothing, writes no suppression record, and leaves `state = incident`,
`lastNotifiedStartKey` unchanged and a non-null `startKey` unchanged. -/
theorem hard_guard_is_silent (env : Env) (cfg : Config) (svc : Service) (o : Observation)
    (now : Int) (st : Store) (hnf : readBack st.persisted = st.persisted)
    (hs : st.persisted.state = "incident") (hn : st.persisted.lastNotifiedStartKey ≠ none)
    (ho : o.state = "incident") :
    (reconcile env cfg svc o now st).sent = [] ∧
      (reconcile env cfg svc o now st).store.sig = st.sig ∧
      (reconcile env cfg svc o now st).store.notifyTs = st.notifyTs ∧
      (reconcile env cfg svc o now st).store.persisted.state = "incident" ∧
      (reconcile env cfg svc o now st).store.persisted.lastNotifiedStartKey
        = st.persisted.lastNotifiedStartKey ∧
      (st.persisted.startKey ≠ none →
        (reconcile env cfg svc o now st).store.persisted.startKey = st.persisted.startKey) := by
  have hl : orNull st.persisted.lastNotifiedStartKey = st.persisted.lastNotifiedStartKey :=
    congrArg PersistedState.lastNotifiedStartKey hnf
  have hk : orNull st.persisted.startKey = st.persisted.startKey :=
    congrArg PersistedState.startKey hnf
  have ht := truthy_of_readBack_ne_none _ hl hn
  have hstep : reconcile env cfg svc o now st = reconcileIncident env svc o now st := by
    simp [reconcile, ho]
  rw [hstep, reconcileIncident_hardGuard env svc o now st hs ht]
  refine ⟨rfl, rfl, rfl, ?_, ?_, ?_⟩
  · simp [setPersistedState, readBack]
  · simp [setPersistedState, readBack, hl]
  · intro hk2
    have htk := truthy_of_readBack_ne_none _ hk hk2
    simp [setPersistedState, readBack, orElse_of_truthy _ htk, hk]

/-- C18 applied to a notified incident `ts:1000` and a new onset `T1`. -/
theorem hard_guard_is_silent_witness :
    (reconcile sampleEnv {} firebase obsT1 900000 notifiedIncidentStore).sent = [] ∧
      (reconcile sampleEnv {} firebase obsT1 900000 notifiedIncidentStore).store.persisted.startKey
        = some "ts:1000" :=
  have h := hard_guard_is_silent sampleEnv {} firebase obsT1 900000 notifiedIncidentStore
    (by decide) rfl (by decide) rfl
  ⟨h.1, h.2.2.2.2.2 (by decide)⟩

/-! ## Grace period under frequent polling -/

/-- C11: a record in `incident` (right after its start notification) followed
by unknown observations every 5 minutes from minute 5 to minute 70, with no
incident observation in between, is still in `incident` after the last poll:
every poll moves `lastNonIncidentTs` to its own time, so the elapsed time the
grace reset tests is never more than one polling interval. -/
theorem grace_reset_never_fires_under_frequent_polls :
    (runSingle sampleEnv {} firebase [(obsT0, 200000)] freshStore).1.persisted.state
        = "incident" ∧
      unknownEveryFiveMinutes.length = 14 ∧
      (unknownEveryFiveMinutes.map (fun x => x.2)).head? = some 300000 ∧
      (unknownEveryFiveMinutes.map (fun x => x.2)).getLast? = some 4200000 ∧
      (4200000 : Int) - 300000 ≥ ({} : Config).resetUnknownMinutes * 60 * 1000 ∧
      (runSingle sampleEnv {} firebase unknownEveryFiveMinutes
        (runSingle sampleEnv {} firebase [(obsT0, 200000)] freshStore).1).1.persisted.state
        = "incident" ∧
      allSent (runSingle sampleEnv {} firebase unknownEveryFiveMinutes
        (runSingle sampleEnv {} firebase [(obsT0, 200000)] freshStore).1) = [] := by
  decide

/-! ## Monotonicity of `lastNonIncidentTs` -/

/-- C12 (counterexample): after incident `T0` and an unknown reading at 400 s
the stored `lastNonIncidentTs` is 400000; the step on incident `T1` at 600 s
sends a start and writes `lastNonIncidentTs: 0`. -/
theorem lastNonIncidentTs_reset_by_start :
    (runSingle sampleEnv {} firebase [(obsT0, 200000), (obsUnknown, 400000)]
        freshStore).1.persisted.lastNonIncidentTs = 400000 ∧
      (reconcile sampleEnv {} firebase obsT1 600000
        (runSingle sampleEnv {} firebase [(obsT0, 200000), (obsUnknown, 400000)]
          freshStore).1).store.persisted.lastNonIncidentTs = 0 ∧
      countStartAny (reconcile sampleEnv {} firebase obsT1 600000
        (runSingle sampleEnv {} firebase [(obsT0, 200000), (obsUnknown, 400000)]
          freshStore).1).sent = 1 := by
  decide

theorem countStartAny_nil_ne_one : countStartAny [] ≠ 1 := by decide

theorem countResolveAny_nil_ne_one : countResolveAny [] ≠ 1 := by decide

/-- C12 (as amended): at a time `now` not earlier than the stored value, a
step on an unknown observation and a step that sends a resolve notification
leave `lastNonIncidentTs = now`, which is not smaller than the value before; a
step that sends a start notification resets it to 0. -/
theorem lastNonIncidentTs_after_step (env : Env) (cfg : Config) (svc : Service)
    (o : Observation) (now : Int) (st : Store)
    (hnow : st.persisted.lastNonIncidentTs ≤ now) :
    (((o.state ≠ "incident" ∧ o.state ≠ "operational") ∨
        countResolveAny (reconcile env cfg svc o now st).sent = 1) →
      (reconcile env cfg svc o now st).store.persisted.lastNonIncidentTs = now ∧
        st.persisted.lastNonIncidentTs
          ≤ (reconcile env cfg svc o now st).store.persisted.lastNonIncidentTs) ∧
    (countStartAny (reconcile env cfg svc o now st).sent = 1 →
      (reconcile env cfg svc o now st).store.persisted.lastNonIncidentTs = 0) := by
  have key : (((o.state ≠ "incident" ∧ o.state ≠ "operational") ∨
        countResolveAny (reconcile env cfg svc o now st).sent = 1) →
      (reconcile env cfg svc o now st).store.persisted.lastNonIncidentTs = now) ∧
    (countStartAny (reconcile env cfg svc o now st).sent = 1 →
      (reconcile env cfg svc o now st).store.persisted.lastNonIncidentTs = 0) := by
    unfold reconcile
    by_cases hi : o.state = "incident"
    · simp only [hi, if_true]
      constructor
      · intro h
        rcases h with h | h
        · exact absurd rfl h.1
        · rw [reconcileIncident_no_resolve] at h
          exact absurd h (by decide)
      · unfold reconcileIncident
        simp only
        split
        · intro h
          exact absurd h countStartAny_nil_ne_one
        · split
          · split
            · intro _
              rfl
            · intro h
              exact absurd h countStartAny_nil_ne_one
          · intro h
            exact absurd h countStartAny_nil_ne_one
    · simp only [hi, if_false]
      by_cases hop : o.state = "operational"
      · simp only [hop, if_true]
        unfold reconcileOperational
        simp only
        split
        · split
          · exact ⟨fun _ => rfl, fun h => by simp [countStartAny, resolveMessage] at h⟩
          · refine ⟨fun h => ?_, fun h => absurd h countStartAny_nil_ne_one⟩
            rcases h with h | h
            · exact absurd rfl h.2
            · exact absurd h countResolveAny_nil_ne_one
        · split
          · refine ⟨fun h => ?_, fun h => absurd h countStartAny_nil_ne_one⟩
            rcases h with h | h
            · exact absurd rfl h.2
            · exact absurd h countResolveAny_nil_ne_one
          · refine ⟨fun h => ?_, fun h => absurd h countStartAny_nil_ne_one⟩
            rcases h with h | h
            · exact absurd rfl h.2
            · exact absurd h countResolveAny_nil_ne_one
      · simp only [hop, if_false]
        refine ⟨fun _ => ?_, fun h => absurd h countStartAny_nil_ne_one⟩
        unfold reconcileUnknown
        simp only
        split
        · split
          · rfl
          · rfl
        · rfl
  refine ⟨fun h => ?_, key.2⟩
  have h1 := key.1 h
  exact ⟨h1, by rw [h1]; exact hnow⟩

/-- C12 (as amended) applied to an unknown reading at 400 s after incident `T0`. -/
theorem lastNonIncidentTs_after_step_witness :
    (reconcile sampleEnv {} firebase obsUnknown 400000
        (runSingle sampleEnv {} firebase [(obsT0, 200000)] freshStore).1
      ).store.persisted.lastNonIncidentTs = 400000 ∧
      (runSingle sampleEnv {} firebase [(obsT0, 200000)] freshStore).1.persisted.lastNonIncidentTs
        ≤ (reconcile sampleEnv {} firebase obsUnknown 400000
          (runSingle sampleEnv {} firebase [(obsT0, 200000)] freshStore).1
        ).store.persisted.lastNonIncidentTs :=
  (lastNonIncidentTs_after_step sampleEnv {} firebase obsUnknown 400000
    (runSingle sampleEnv {} firebase [(obsT0, 200000)] freshStore).1 (by decide)).1
    (Or.inl ⟨by decide, by decide⟩)

/-! ## One poll cycle -/

/-- C16: Firebase holds an unresolved, notified incident and is observed
operational; Mixpanel, next in the list, is fetched successfully with an
incident. The handler returns from inside the Firebase step, so Mixpanel is
not reconciled in that cycle: its record stays untouched and no start is sent
for it, although on its own it would be reconciled and notified. -/
theorem return_in_resolve_branch_skips_later_services :
    (fetchedObservation obsOperational).fetched = true ∧
      (fetchedObservation obsT1).fetched = true ∧
      hasStarted (firebaseIncidentWorld.states (getDedupeKey firebase)) = true ∧
      (pollServices sampleEnv {} 400000
        [(firebase, fetchedObservation obsOperational), (mixpanel, fetchedObservation obsT1)]
        firebaseIncidentWorld).reconciled = ["Firebase"] ∧
      (pollServices sampleEnv {} 400000
        [(firebase, fetchedObservation obsOperational), (mixpanel, fetchedObservation obsT1)]
        firebaseIncidentWorld).completed = false ∧
      (pollServices sampleEnv {} 400000
        [(firebase, fetchedObservation obsOperational), (mixpanel, fetchedObservation obsT1)]
        firebaseIncidentWorld).world.states (getDedupeKey mixpanel) = defaultState ∧
      countStartAny (pollServices sampleEnv {} 400000
        [(firebase, fetchedObservation obsOperational), (mixpanel, fetchedObservation obsT1)]
        firebaseIncidentWorld).sent = 0 ∧
      (pollServices sampleEnv {} 400000 [(mixpanel, fetchedObservation obsT1)]
        firebaseIncidentWorld).reconciled = ["Mixpanel"] ∧
      countStartAny (pollServices sampleEnv {} 400000 [(mixpanel, fetchedObservation obsT1)]
        firebaseIncidentWorld).sent = 1 := by
  decide

/-! ## Suppressed start candidates and the keys of the suppression window -/

theorem notSuppressed_iff (st : Store) (key v : String) (now : Int) :
    notSuppressed st key v now = true ↔
      st.sig key ≠ v ∧ suppressWindowMs ≤ now - st.notifyTs key := by
  simp [notSuppressed]

/-- What the incident branch does with a start candidate. -/
theorem reconcileIncident_candidate (env : Env) (svc : Service) (o : Observation)
    (now : Int) (st : Store)
    (hg : ¬ (st.persisted.state = "incident" ∧ truthy st.persisted.lastNotifiedStartKey = true))
    (hc : isStartCandidate env o st.persisted now = true) :
    (notSuppressed st (getDedupeKey svc ++ ":start")
        ("start:" ++ orEmpty (incidentStartKeyOf env o st.persisted now)) now = true →
      (reconcileIncident env svc o now st).sent = [startMessage env svc o st.persisted now]) ∧
    (notSuppressed st (getDedupeKey svc ++ ":start")
        ("start:" ++ orEmpty (incidentStartKeyOf env o st.persisted now)) now = false →
      reconcileIncident env svc o now st = { store := st, sent := [], exit := false }) := by
  have ht := truthy_incidentStartKeyOf env o st.persisted now
  have he : orElse (incidentStartKeyOf env o st.persisted now)
      (incidentStartedAt env o st.persisted now) = incidentStartKeyOf env o st.persisted now :=
    orElse_of_truthy _ ht
  constructor
  · intro hns
    rw [reconcileIncident_approved env svc o now st hg hc hns]
  · intro hns
    unfold reconcileIncident
    simp only [if_neg hg, hc, if_true, he, hns, Bool.false_eq_true, if_false]

/-- C19 (counterexample): after incident `T0` was notified and resolved, the
same incident observed again is a start candidate that the stored signature
rejects; the step sends nothing and the persisted state stays `operational`
with no start key, not `incident`. -/
theorem suppressed_candidate_not_persisted :
    isStartCandidate sampleEnv obsT0
        (runSingle sampleEnv {} firebase [(obsT0, 200000), (obsOperational, 400000)]
          freshStore).1.persisted 600000 = true ∧
      (reconcile sampleEnv {} firebase obsT0 600000
        (runSingle sampleEnv {} firebase [(obsT0, 200000), (obsOperational, 400000)]
          freshStore).1).sent = [] ∧
      (reconcile sampleEnv {} firebase obsT0 600000
        (runSingle sampleEnv {} firebase [(obsT0, 200000), (obsOperational, 400000)]
          freshStore).1).store.persisted.state = "operational" ∧
      (reconcile sampleEnv {} firebase obsT0 600000
        (runSingle sampleEnv {} firebase [(obsT0, 200000), (obsOperational, 400000)]
          freshStore).1).store.persisted.startKey = none := by
  decide

/-- C19 (as amended): when an incident observation is a candidate for a start
notification (the hard guard does not apply) and the suppression check rejects
it, the step sends nothing and writes nothing: the persisted record and the
suppression records are left as they were. -/
theorem suppressed_candidate_writes_nothing (env : Env) (cfg : Config) (svc : Service)
    (o : Observation) (now : Int) (st : Store) (ho : o.state = "incident")
    (hg : ¬ (st.persisted.state = "incident" ∧ truthy st.persisted.lastNotifiedStartKey = true))
    (hc : isStartCandidate env o st.persisted now = true)
    (hsup : notSuppressed st (getDedupeKey svc ++ ":start")
      ("start:" ++ orEmpty (incidentStartKeyOf env o st.persisted now)) now = false) :
    (reconcile env cfg svc o now st).sent = [] ∧
      (reconcile env cfg svc o now st).store = st ∧
      (reconcile env cfg svc o now st).store.persisted = st.persisted := by
  have hstep : reconcile env cfg svc o now st = reconcileIncident env svc o now st := by
    simp [reconcile, ho]
  rw [hstep, (reconcileIncident_candidate env svc o now st hg hc).2 hsup]
  exact ⟨rfl, rfl, rfl⟩

/-- C19 (as amended) applied to incident `T0` observed again after its resolve. -/
theorem suppressed_candidate_writes_nothing_witness :
    (reconcile sampleEnv {} firebase obsT0 600000
        (runSingle sampleEnv {} firebase [(obsT0, 200000), (obsOperational, 400000)]
          freshStore).1).sent = [] ∧
      (reconcile sampleEnv {} firebase obsT0 600000
        (runSingle sampleEnv {} firebase [(obsT0, 200000), (obsOperational, 400000)]
          freshStore).1).store.persisted
        = (runSingle sampleEnv {} firebase [(obsT0, 200000), (obsOperational, 400000)]
          freshStore).1.persisted :=
  have h := suppressed_candidate_writes_nothing sampleEnv {} firebase obsT0 600000
    (runSingle sampleEnv {} firebase [(obsT0, 200000), (obsOperational, 400000)] freshStore).1
    rfl (by decide) (by decide) (by decide)
  ⟨h.1, h.2.2⟩

/-- C20 (counterexample): the start of incident `ts:1000` was sent at 200 s
and resolved at 210 s; at 250 s incident `T1` is a start candidate with the
different key `ts:2000`, and it is dropped because the last send for the
service was 50 s earlier. -/
theorem different_startKey_dropped_inside_window :
    isStartCandidate sampleEnv obsT1
        (runSingle sampleEnv {} firebase [(obsT0, 200000), (obsOperational, 210000)]
          freshStore).1.persisted 250000 = true ∧
      incidentStartKeyOf sampleEnv obsT1
        (runSingle sampleEnv {} firebase [(obsT0, 200000), (obsOperational, 210000)]
          freshStore).1.persisted 250000 = some "ts:2000" ∧
      (runSingle sampleEnv {} firebase [(obsT0, 200000), (obsOperational, 210000)]
        freshStore).1.sig (getDedupeKey firebase ++ ":start") = "start:ts:1000" ∧
      (runSingle sampleEnv {} firebase [(obsT0, 200000), (obsOperational, 210000)]
        freshStore).1.notifyTs (getDedupeKey firebase ++ ":start") = 200000 ∧
      (reconcile sampleEnv {} firebase obsT1 250000
        (runSingle sampleEnv {} firebase [(obsT0, 200000), (obsOperational, 210000)]
          freshStore).1).sent = [] := by
  decide

/-- C20 (as amended): in the single-incident reconciler the suppression
records are keyed by service and direction only. A start candidate is sent
exactly when the signature last stored for the service's starts differs from
`start:<startKey>` and the last start attempt of the service, whatever its
identity, is at least 120 s old; likewise a resolve candidate with the
service's resolve records. -/
theorem suppression_keyed_by_service_and_direction (env : Env) (cfg : Config)
    (svc : Service) (o : Observation) (now : Int) (st : Store) :
    (o.state = "incident" →
      ¬ (st.persisted.state = "incident" ∧ truthy st.persisted.lastNotifiedStartKey = true) →
      isStartCandidate env o st.persisted now = true →
      ((reconcile env cfg svc o now st).sent ≠ [] ↔
        st.sig (getDedupeKey svc ++ ":start")
            ≠ "start:" ++ orEmpty (incidentStartKeyOf env o st.persisted now) ∧
          suppressWindowMs ≤ now - st.notifyTs (getDedupeKey svc ++ ":start"))) ∧
    (o.state = "operational" →
      (hasStarted st.persisted && resolveNotSent env st.persisted) = true →
      ((reconcile env cfg svc o now st).sent ≠ [] ↔
        st.sig (getDedupeKey svc ++ ":resolve")
            ≠ "resolve:" ++ orEmpty (orNull (trackedStartKey env st.persisted)) ∧
          suppressWindowMs ≤ now - st.notifyTs (getDedupeKey svc ++ ":resolve"))) := by
  constructor
  · intro ho hg hc
    have hstep : reconcile env cfg svc o now st = reconcileIncident env svc o now st := by
      simp [reconcile, ho]
    rw [hstep, ← notSuppressed_iff]
    have h := reconcileIncident_candidate env svc o now st hg hc
    cases hns : notSuppressed st (getDedupeKey svc ++ ":start")
      ("start:" ++ orEmpty (incidentStartKeyOf env o st.persisted now)) now with
    | true => simp [h.1 hns]
    | false => simp [h.2 hns]
  · intro ho hc
    have hstep : reconcile env cfg svc o now st = reconcileOperational env svc now st := by
      simp [reconcile, ho]
    rw [hstep, ← notSuppressed_iff]
    unfold reconcileOperational
    simp only [hc, if_true]
    cases hns : notSuppressed st (getDedupeKey svc ++ ":resolve")
      ("resolve:" ++ orEmpty (orNull (trackedStartKey env st.persisted))) now with
    | true => simp
    | false => simp

/-- C20 (as amended) applied to incident `T1` observed 50 s after the start of
incident `T0` was sent. -/
theorem suppression_keyed_by_service_and_direction_witness :
    ((reconcile sampleEnv {} firebase obsT1 250000
        (runSingle sampleEnv {} firebase [(obsT0, 200000), (obsOperational, 210000)]
          freshStore).1).sent ≠ [] ↔
      (runSingle sampleEnv {} firebase [(obsT0, 200000), (obsOperational, 210000)]
          freshStore).1.sig (getDedupeKey firebase ++ ":start")
          ≠ "start:" ++ orEmpty (incidentStartKeyOf sampleEnv obsT1
            (runSingle sampleEnv {} firebase [(obsT0, 200000), (obsOperational, 210000)]
              freshStore).1.persisted 250000) ∧
        suppressWindowMs ≤ 250000 -
          (runSingle sampleEnv {} firebase [(obsT0, 200000), (obsOperational, 210000)]
            freshStore).1.notifyTs (getDedupeKey firebase ++ ":start")) :=
  (suppression_keyed_by_service_and_direction sampleEnv {} firebase obsT1 250000
    (runSingle sampleEnv {} firebase [(obsT0, 200000), (obsOperational, 210000)]
      freshStore).1).1 rfl (by decide) (by decide)

/-! ## Unknown observations -/

theorem reconcile_unknown (env : Env) (cfg : Config) (svc : Service) (o : Observation)
    (now : Int) (st : Store) (h1 : o.state ≠ "incident") (h2 : o.state ≠ "operational") :
    reconcile env cfg svc o now st = reconcileUnknown cfg now st := by
  simp [reconcile, h1, h2]

/-- C21: on an observation whose state is unknown (neither incident nor
operational) the single-incident step sends no notification, whatever the
persisted record, the suppression records and the time, and the
`lastNonIncidentTs` read back after the step equals `now`. -/
theorem unknown_is_silent_and_stamps_now (env : Env) (cfg : Config) (svc : Service)
    (o : Observation) (now : Int) (st : Store)
    (h1 : o.state ≠ "incident") (h2 : o.state ≠ "operational") :
    (reconcile env cfg svc o now st).sent = [] ∧
      (reconcile env cfg svc o now st).store.persisted.lastNonIncidentTs = now := by
  rw [reconcile_unknown env cfg svc o now st h1 h2]
  refine ⟨rfl, ?_⟩
  unfold reconcileUnknown
  simp only
  split
  · split
    · rfl
    · rfl
  · rfl

/-- C21 applied to an unknown reading against a notified incident. -/
theorem unknown_is_silent_and_stamps_now_witness :
    (reconcile sampleEnv {} firebase obsUnknown 700000 notifiedIncidentStore).sent = [] ∧
      (reconcile sampleEnv {} firebase obsUnknown 700000
        notifiedIncidentStore).store.persisted.lastNonIncidentTs = 700000 :=
  unknown_is_silent_and_stamps_now sampleEnv {} firebase obsUnknown 700000
    notifiedIncidentStore (by decide) (by decide)

/-- C29: on an observation that is neither incident nor operational the step
does not keep the incident identity: the record read back has `startKey`,
`lastNotifiedStartKey` and `lastNotifiedResolveKey` null whatever they were,
while `state` and `startedAt` are unchanged unless the grace reset fires (the
record before the step being one that `getPersistedState` returned). -/
theorem unknown_drops_incident_identity (env : Env) (cfg : Config) (svc : Service)
    (o : Observation) (now : Int) (st : Store)
    (h1 : o.state ≠ "incident") (h2 : o.state ≠ "operational")
    (hnf : readBack st.persisted = st.persisted) :
    (reconcile env cfg svc o now st).store.persisted.startKey = none ∧
      (reconcile env cfg svc o now st).store.persisted.lastNotifiedStartKey = none ∧
      (reconcile env cfg svc o now st).store.persisted.lastNotifiedResolveKey = none ∧
      (¬ graceResetFires cfg st.persisted now →
        (reconcile env cfg svc o now st).store.persisted.state = st.persisted.state ∧
        (reconcile env cfg svc o now st).store.persisted.startedAt
          = st.persisted.startedAt) := by
  have hstate : (if st.persisted.state = "" then "unknown" else st.persisted.state)
      = st.persisted.state := congrArg PersistedState.state hnf
  have hstarted : orNull st.persisted.startedAt = st.persisted.startedAt :=
    congrArg PersistedState.startedAt hnf
  rw [reconcile_unknown env cfg svc o now st h1 h2]
  unfold reconcileUnknown
  simp only
  split
  · rename_i hc
    split
    · rename_i he
      refine ⟨rfl, rfl, rfl, fun hg => ?_⟩
      exact absurd ⟨hc.1, hc.2, he⟩ hg
    · refine ⟨rfl, rfl, rfl, fun _ => ?_⟩
      exact ⟨hstate, hstarted⟩
  · refine ⟨rfl, rfl, rfl, fun _ => ?_⟩
    exact ⟨hstate, hstarted⟩

/-- C29 applied to an unknown reading against a notified incident `ts:1000`. -/
theorem unknown_drops_incident_identity_witness :
    (reconcile sampleEnv {} firebase obsUnknown 700000
        notifiedIncidentStore).store.persisted.startKey = none ∧
      (reconcile sampleEnv {} firebase obsUnknown 700000
        notifiedIncidentStore).store.persisted.lastNotifiedStartKey = none ∧
      (reconcile sampleEnv {} firebase obsUnknown 700000
        notifiedIncidentStore).store.persisted.state = "incident" ∧
      (reconcile sampleEnv {} firebase obsUnknown 700000
        notifiedIncidentStore).store.persisted.startedAt = some "T0" :=
  have h := unknown_drops_incident_identity sampleEnv {} firebase obsUnknown 700000
    notifiedIncidentStore (by decide) (by decide) (by decide)
  have h4 := h.2.2.2 (by
    intro hg
    exact absurd hg.2.1 (by decide))
  ⟨h.1, h.2.1, h4.1, h4.2⟩

/-! ## Multi-incident cycles: resolved incidents in the list -/

/-- C25: the outcome of a multi-incident cycle (messages, store, active keys)
depends only on the incidents whose status is not `resolved`, compared without
regard to case: dropping the resolved ones from the list gives the same
outcome, so an incident that disappears is treated like one reported resolved. -/
theorem reconcileMulti_ignores_resolved (env : Env) (svc : Service)
    (incidents : List RawIncident) (now : Int) (st : Store) :
    reconcileMulti env svc (incidents.filter isActive) now st
      = reconcileMulti env svc incidents now st := by
  unfold reconcileMulti
  simp only [List.filter_filter, Bool.and_self]

/-! ## Lost state writes of the multi-incident branch -/

/-- C22: from a fresh store, one cycle with the two new incidents A and B sends
a start notification for both keys, but the record persisted after the cycle
lists only the key of B in `notifiedStartKeys` and caches only the title and
onset of B. -/
theorem notified_start_key_lost :
    (runMulti sampleEnv sentry [([incidentA, incidentB], 200000)] freshStore).2.map
        (fun l => l.map (fun n => (n.direction, n.identity)))
        = [[(Direction.start, some "ts:1000"), (Direction.start, some "ts:2000")]] ∧
      (runMulti sampleEnv sentry [([incidentA, incidentB], 200000)]
        freshStore).1.persisted.notifiedStartKeys = ["ts:2000"] ∧
      mapGet (runMulti sampleEnv sentry [([incidentA, incidentB], 200000)]
        freshStore).1.persisted.startKeyToTitle "ts:1000" = none ∧
      mapGet (runMulti sampleEnv sentry [([incidentA, incidentB], 200000)]
        freshStore).1.persisted.startKeyToStartedAt "ts:1000" = none := by
  decide

/-- C24: incident A is notified in cycle 1 and B in cycle 2; in cycle 3 both are
gone and both resolves are sent, yet the persisted state is `incident` after
cycle 3 and still after cycle 4. And when A and B are notified in the same
cycle and only B disappears, the state becomes `operational` while the
notified incident A is still active. -/
theorem multi_state_wrong_after_lost_writes :
    (runMulti sampleEnv sentry twoResolvesCycles freshStore).2.map
        (fun l => l.map (fun n => (n.direction, n.identity)))
        = [[(Direction.start, some "ts:1000")], [(Direction.start, some "ts:2000")],
          [(Direction.resolve, some "ts:1000"), (Direction.resolve, some "ts:2000")], []] ∧
      (runMulti sampleEnv sentry (twoResolvesCycles.take 3) freshStore).1.persisted.state
        = "incident" ∧
      (runMulti sampleEnv sentry twoResolvesCycles freshStore).1.persisted.state
        = "incident" ∧
      (runMulti sampleEnv sentry lostStartCycles freshStore).2.map
        (fun l => l.map (fun n => (n.direction, n.identity)))
        = [[(Direction.start, some "ts:1000"), (Direction.start, some "ts:2000")],
          [(Direction.resolve, some "ts:2000")]] ∧
      activeKeys sampleEnv [incidentA] = ["ts:1000"] ∧
      (runMulti sampleEnv sentry lostStartCycles freshStore).1.persisted.state
        = "operational" := by
  decide

/-! ## Normalizers -/

/-- C26 (counterexample): `normalizeFromLocal` passes the payload's state and
severity through: the state `degraded` and the severity `major` come out as
they are, and neither is canonical. -/
theorem normalizeFromLocal_passes_state_through :
    (normalizeFromLocal (some degradedPayload)).state = "degraded" ∧
      isCanonicalState (normalizeFromLocal (some degradedPayload)).state = false ∧
      (normalizeFromLocal (some majorPayload)).state = "incident" ∧
      (normalizeFromLocal (some majorPayload)).severity = some "major" ∧
      isCanonicalSeverity (normalizeFromLocal (some majorPayload)).severity = false := by
  decide

theorem parseIndicator_canonical (s : Summary) :
    isCanonicalState (parseIndicator s).state = true ∧
      ((parseIndicator s).state = "incident" →
        isCanonicalSeverity (parseIndicator s).severity = true) := by
  unfold parseIndicator
  split
  · exact ⟨by decide, fun h => absurd h (by decide)⟩
  · simp only
    split
    · exact ⟨by decide, fun h => absurd h (by decide)⟩
    · split
      · exact ⟨(by decide : isCanonicalState "incident" = true),
          fun _ => (by decide : isCanonicalSeverity (some "minor") = true)⟩
      · split
        · exact ⟨(by decide : isCanonicalState "incident" = true),
            fun _ => (by decide : isCanonicalSeverity (some "critical") = true)⟩
        · exact ⟨by decide, fun h => absurd h (by decide)⟩

theorem observationOfActive_canonical (a : SummaryIncident) :
    (observationOfActive a).state = "incident" ∧
      isCanonicalSeverity (observationOfActive a).severity = true := by
  refine ⟨rfl, ?_⟩
  unfold observationOfActive
  simp only
  split
  · decide
  · decide

/-- C26 (as amended): `parseStatuspageSummary` (and `normalizeFromStatuspage`,
which calls it) returns a canonical observation for every summary: the state is
one of operational, incident, unknown, and an incident has severity minor or
critical. `normalizeFromLocal` returns the payload's `state` unchanged when it
is a string, whatever the string, with the payload's `severity` (default
`minor`), and the state `unknown` otherwise. -/
theorem normalizers_output (summary : Option Summary) (data : Option LocalPayload) :
    (isCanonicalState (parseStatuspageSummary summary).state = true ∧
      ((parseStatuspageSummary summary).state = "incident" →
        isCanonicalSeverity (parseStatuspageSummary summary).severity = true)) ∧
    normalizeFromStatuspage summary = parseStatuspageSummary summary ∧
    ((∃ d s, data = some d ∧ d.state = some s ∧
        (normalizeFromLocal data).state = s ∧
        (normalizeFromLocal data).severity = orElse d.severity (some "minor")) ∨
      ((data = none ∨ ∃ d, data = some d ∧ d.state = none) ∧
        (normalizeFromLocal data).state = "unknown")) := by
  refine ⟨?_, rfl, ?_⟩
  · unfold parseStatuspageSummary
    split
    · exact ⟨by decide, fun h => absurd h (by decide)⟩
    · split
      · split
        · rename_i active _
          exact ⟨by rw [(observationOfActive_canonical active).1]; decide,
            fun _ => (observationOfActive_canonical active).2⟩
        · exact ⟨by decide, fun h => absurd h (by decide)⟩
      · split
        · exact ⟨by decide, fun h => absurd h (by decide)⟩
        · exact parseIndicator_canonical _
      · exact parseIndicator_canonical _
  · cases data with
    | none => exact Or.inr ⟨Or.inl rfl, rfl⟩
    | some d =>
      cases hs : d.state with
      | none =>
        refine Or.inr ⟨Or.inr ⟨d, rfl, hs⟩, ?_⟩
        simp [normalizeFromLocal, hs]
      | some s =>
        refine Or.inl ⟨d, s, rfl, hs, ?_, ?_⟩
        · simp [normalizeFromLocal, hs]
        · simp [normalizeFromLocal, hs]

/-- C26 (as amended) applied to a summary with one incident of impact `Major`. -/
theorem normalizers_output_witness :
    (parseStatuspageSummary (some majorSummary)).state = "incident" ∧
      isCanonicalSeverity (parseStatuspageSummary (some majorSummary)).severity = true :=
  have h := (normalizers_output (some majorSummary) none).1
  ⟨by decide, h.2 (by decide)⟩

/-! ## Dedupe keys of the configured services -/

theorem serviceKeys_eq (siteUrl : String) : serviceKeys siteUrl = serviceKeys "" := rfl

/-- C30: `getDedupeKey` is not injective on the configured services: `Google
Play Store` and `Google Play Services` both derive the key
`https://status.play.google.com`, so they work on the same persisted record
and the same suppression records; every other pair of configured services
derives distinct keys. -/
theorem dedupe_key_shared_by_play_services (siteUrl : String) :
    (∀ p ∈ serviceKeys siteUrl, ∀ q ∈ serviceKeys siteUrl, p.2 = q.2 →
      p.1 = q.1 ∨ (p.1 = "Google Play Store" ∧ q.1 = "Google Play Services") ∨
        (p.1 = "Google Play Services" ∧ q.1 = "Google Play Store")) ∧
    (serviceKeys siteUrl).length = 14 ∧
    ((serviceKeys siteUrl).map (fun p => p.1)).Nodup ∧
    ("Google Play Store", "https://status.play.google.com") ∈ serviceKeys siteUrl ∧
    ("Google Play Services", "https://status.play.google.com") ∈ serviceKeys siteUrl ∧
    (∀ a ∈ services siteUrl, ∀ b ∈ services siteUrl, ∀ w : World,
      getDedupeKey a = getDedupeKey b →
        w.view (getDedupeKey a) = w.view (getDedupeKey b)) := by
  rw [serviceKeys_eq siteUrl]
  refine ⟨by decide, by decide, by decide, by decide, by decide, ?_⟩
  intro a _ b _ w h
  rw [h]

/-! ## Reachable records of the single-incident reconciler -/

theorem orNull_idem (x : Option String) : orNull (orNull x) = orNull x := by
  by_cases h : truthy x = true
  · simp [orNull, h]
  · have h1 : orNull x = none := by simp [orNull, h]
    rw [h1]
    rfl

theorem truthy_none_ne_true : ¬ (truthy none = true) := by decide

theorem orNull_ne_none {x : Option String} (h : orNull x ≠ none) : truthy x = true := by
  by_contra hx
  exact h (by simp [orNull, hx])

theorem readBack_state_eq_incident (q : PersistedState) :
    (readBack q).state = "incident" ↔ q.state = "incident" := by
  simp only [readBack]
  by_cases h : q.state = ""
  · simp [h]
  · simp [h]

/-- A written record satisfies the invariant as soon as the written fields do. -/
theorem recordInvariant_readBack (q : PersistedState)
    (ha : truthy q.lastNotifiedStartKey = true →
      q.state = "incident" ∧ orNull q.startKey = q.lastNotifiedStartKey)
    (hb : q.state ≠ "incident" → orNull q.startedAt = none ∧ orNull q.startKey = none) :
    RecordInvariant (readBack q) := by
  refine ⟨orNull_idem _, orNull_idem _, orNull_idem _, ?_, ?_⟩
  · intro h
    have ht : truthy q.lastNotifiedStartKey = true := orNull_ne_none h
    have h1 := ha ht
    refine ⟨(readBack_state_eq_incident q).mpr h1.1, ?_⟩
    show orNull q.startKey = orNull q.lastNotifiedStartKey
    rw [orNull_of_truthy ht]
    exact h1.2
  · intro h
    have h1 : q.state ≠ "incident" := fun hq => h ((readBack_state_eq_incident q).mpr hq)
    exact hb h1

theorem recordInvariant_default : RecordInvariant defaultState := by
  refine ⟨rfl, rfl, rfl, ?_, ?_⟩
  · intro h
    exact absurd rfl h
  · intro _
    exact ⟨rfl, rfl⟩

theorem truthy_false_of_none {x : Option String} (h : x = none) : truthy x = false := by
  subst h
  rfl

/-- Under the invariant, an incident observation outside the hard guard is
always a start candidate. -/
theorem isStartCandidate_of_invariant (env : Env) (o : Observation) (now : Int)
    (p : PersistedState) (hinv : RecordInvariant p)
    (hg : ¬ (p.state = "incident" ∧ truthy p.lastNotifiedStartKey = true)) :
    isStartCandidate env o p now = true := by
  have ht := truthy_incidentStartKeyOf env o p now
  have hne : p.lastNotifiedStartKey ≠ incidentStartKeyOf env o p now := by
    intro h
    have ht2 : truthy p.lastNotifiedStartKey = true := by rw [h]; exact ht
    have hnn : p.lastNotifiedStartKey ≠ none := by
      intro h0
      rw [truthy_false_of_none h0] at ht2
      exact absurd ht2 (by decide)
    exact hg ⟨(hinv.2.2.2.1 hnn).1, ht2⟩
  simp [isStartCandidate, ht, hne]

theorem hasStarted_of_invariant (p : PersistedState) (hinv : RecordInvariant p)
    (h : hasStarted p = true) : p.state = "incident" := by
  by_contra hs
  have h1 := hinv.2.2.2.2 hs
  simp [hasStarted, h1.1, h1.2, truthy, hs] at h

theorem reconcileIncident_invariant (env : Env) (svc : Service) (o : Observation)
    (now : Int) (st : Store) (hinv : RecordInvariant st.persisted) :
    RecordInvariant (reconcileIncident env svc o now st).store.persisted := by
  by_cases hg : st.persisted.state = "incident" ∧ truthy st.persisted.lastNotifiedStartKey = true
  · rw [reconcileIncident_hardGuard env svc o now st hg.1 hg.2]
    apply recordInvariant_readBack
    · intro ht
      refine ⟨rfl, ?_⟩
      have hnn : st.persisted.lastNotifiedStartKey ≠ none := by
        intro h0
        rw [truthy_false_of_none h0] at ht
        exact absurd ht (by decide)
      have hk := (hinv.2.2.2.1 hnn).2
      have htk : truthy st.persisted.startKey = true := by rw [hk]; exact ht
      show orNull (orElse st.persisted.startKey (currentIncidentKey env o))
        = st.persisted.lastNotifiedStartKey
      rw [orElse_of_truthy _ htk, orNull_of_truthy htk, hk]
    · intro h
      exact absurd rfl h
  · have hc := isStartCandidate_of_invariant env o now st.persisted hinv hg
    have h := reconcileIncident_candidate env svc o now st hg hc
    cases hns : notSuppressed st (getDedupeKey svc ++ ":start")
      ("start:" ++ orEmpty (incidentStartKeyOf env o st.persisted now)) now with
    | true =>
      rw [reconcileIncident_approved env svc o now st hg hc hns]
      apply recordInvariant_readBack
      · intro ht
        exact ⟨rfl, orNull_of_truthy ht⟩
      · intro h
        exact absurd rfl h
    | false =>
      rw [h.2 hns]
      exact hinv

theorem reconcileOperational_invariant (env : Env) (svc : Service) (now : Int) (st : Store)
    (hinv : RecordInvariant st.persisted) :
    RecordInvariant (reconcileOperational env svc now st).store.persisted := by
  unfold reconcileOperational
  simp only
  split
  · split
    · apply recordInvariant_readBack
      · intro ht
        exact absurd ht truthy_none_ne_true
      · intro _
        exact ⟨rfl, rfl⟩
    · exact hinv
  · split
    · apply recordInvariant_readBack
      · intro ht
        exact absurd ht truthy_none_ne_true
      · intro _
        exact ⟨rfl, rfl⟩
    · exact hinv

theorem reconcileUnknown_invariant (cfg : Config) (now : Int) (st : Store)
    (hinv : RecordInvariant st.persisted) :
    RecordInvariant (reconcileUnknown cfg now st).store.persisted := by
  have h1 : RecordInvariant (readBack
      { state := st.persisted.state, startedAt := st.persisted.startedAt,
        lastNonIncidentTs := now, incidentId := st.persisted.incidentId }) := by
    apply recordInvariant_readBack
    · intro ht
      exact absurd ht truthy_none_ne_true
    · intro hs
      have h2 := hinv.2.2.2.2 hs
      refine ⟨?_, rfl⟩
      show orNull st.persisted.startedAt = none
      rw [h2.1]
      rfl
  have h2 : RecordInvariant (readBack
      { state := "operational", startedAt := none, lastNonIncidentTs := now,
        incidentId := none }) := by
    apply recordInvariant_readBack
    · intro ht
      exact absurd ht truthy_none_ne_true
    · intro _
      exact ⟨rfl, rfl⟩
  unfold reconcileUnknown
  simp only
  split
  · split
    · exact h2
    · exact h1
  · exact h1

theorem reconcile_invariant (env : Env) (cfg : Config) (svc : Service) (o : Observation)
    (now : Int) (st : Store) (hinv : RecordInvariant st.persisted) :
    RecordInvariant (reconcile env cfg svc o now st).store.persisted := by
  unfold reconcile
  split
  · exact reconcileIncident_invariant env svc o now st hinv
  · split
    · exact reconcileOperational_invariant env svc now st hinv
    · exact reconcileUnknown_invariant cfg now st hinv

theorem runSingle_invariant (env : Env) (cfg : Config) (svc : Service)
    (steps : List (Observation × Int)) (st : Store) (hinv : RecordInvariant st.persisted) :
    RecordInvariant (runSingle env cfg svc steps st).1.persisted := by
  induction steps generalizing st with
  | nil => exact hinv
  | cons x rest ih =>
    obtain ⟨o, t⟩ := x
    exact ih _ (reconcile_invariant env cfg svc o t st hinv)

/-- C27: in every persisted record reachable from the default record by any
sequence of single-incident reconcile steps (any observations, times and
suppression records), (a) a non-null `lastNotifiedStartKey` implies
`state = incident` and `startKey = lastNotifiedStartKey`, and (b) a state other
than `incident` implies `startedAt = null` and `startKey = null`. -/
theorem reachable_record_invariant (env : Env) (cfg : Config) (svc : Service)
    (steps : List (Observation × Int)) (st : Store) (hdef : st.persisted = defaultState) :
    ((runSingle env cfg svc steps st).1.persisted.lastNotifiedStartKey ≠ none →
      (runSingle env cfg svc steps st).1.persisted.state = "incident" ∧
      (runSingle env cfg svc steps st).1.persisted.startKey
        = (runSingle env cfg svc steps st).1.persisted.lastNotifiedStartKey) ∧
    ((runSingle env cfg svc steps st).1.persisted.state ≠ "incident" →
      (runSingle env cfg svc steps st).1.persisted.startedAt = none ∧
      (runSingle env cfg svc steps st).1.persisted.startKey = none) := by
  have h := runSingle_invariant env cfg svc steps st (by rw [hdef]; exact recordInvariant_default)
  exact ⟨h.2.2.2.1, h.2.2.2.2⟩

/-- C27 applied to the five polls incident, operational, incident,
operational, incident from a fresh store. -/
theorem reachable_record_invariant_witness :
    (runSingle sampleEnv {} firebase churnPolls freshStore).1.persisted.state = "incident" ∧
      (runSingle sampleEnv {} firebase churnPolls freshStore).1.persisted.startKey
        = (runSingle sampleEnv {} firebase churnPolls freshStore).1.persisted.lastNotifiedStartKey :=
  (reachable_record_invariant sampleEnv {} firebase churnPolls freshStore rfl).1 (by decide)

/-! ## Every resolve follows a start -/

theorem resolvesPaired_split (l : List Notification) :
    ∀ (armed : Bool) (pre : List Notification) (r : Notification) (post : List Notification),
      resolvesPaired armed l = true → l = pre ++ r :: post →
      r.direction = Direction.resolve →
      (pre = [] ∧ armed = true) ∨ ∃ a s, pre = a ++ [s] ∧ s.direction = Direction.start := by
  induction l with
  | nil =>
    intro armed pre r post _ hl _
    exact absurd hl (by simp)
  | cons n rest ih =>
    intro armed pre r post hp hl hr
    cases pre with
    | nil =>
      simp only [List.nil_append, List.cons.injEq] at hl
      obtain ⟨hn, _⟩ := hl
      subst hn
      simp only [resolvesPaired, hr, Bool.and_eq_true] at hp
      exact Or.inl ⟨rfl, hp.1⟩
    | cons p pre2 =>
      simp only [List.cons_append, List.cons.injEq] at hl
      obtain ⟨hn, hrest⟩ := hl
      subst hn
      right
      cases hd : n.direction with
      | start =>
        simp only [resolvesPaired, hd] at hp
        rcases ih true pre2 r post hp hrest hr with h | ⟨a, s, ha, hs⟩
        · exact ⟨[], n, by rw [h.1]; rfl, hd⟩
        · exact ⟨n :: a, s, by rw [ha]; rfl, hs⟩
      | resolve =>
        simp only [resolvesPaired, hd, Bool.and_eq_true] at hp
        rcases ih false pre2 r post hp.2 hrest hr with h | ⟨a, s, ha, hs⟩
        · exact absurd h.2 (by decide)
        · exact ⟨n :: a, s, by rw [ha]; rfl, hs⟩

theorem operational_ne_incident : ("operational" : String) ≠ "incident" := by decide

/-- One step keeps the pairing: it sends nothing, or a start, or a resolve
that finds a start pending. -/
theorem reconcile_paired (env : Env) (cfg : Config) (svc : Service) (o : Observation)
    (now : Int) (st : Store) (armed : Bool) (hinv : RecordInvariant st.persisted)
    (harm : st.persisted.state = "incident" → armed = true) :
    ∃ armed2 : Bool,
      ((reconcile env cfg svc o now st).store.persisted.state = "incident" → armed2 = true) ∧
      ∀ rest, resolvesPaired armed2 rest = true →
        resolvesPaired armed ((reconcile env cfg svc o now st).sent ++ rest) = true := by
  unfold reconcile
  split
  · -- incident observation
    by_cases hg : st.persisted.state = "incident" ∧
        truthy st.persisted.lastNotifiedStartKey = true
    · rw [reconcileIncident_hardGuard env svc o now st hg.1 hg.2]
      exact ⟨armed, fun _ => harm hg.1, fun rest h => h⟩
    · have hc := isStartCandidate_of_invariant env o now st.persisted hinv hg
      have h := reconcileIncident_candidate env svc o now st hg hc
      cases hns : notSuppressed st (getDedupeKey svc ++ ":start")
        ("start:" ++ orEmpty (incidentStartKeyOf env o st.persisted now)) now with
      | true =>
        rw [reconcileIncident_approved env svc o now st hg hc hns]
        exact ⟨true, fun _ => rfl, fun rest h => h⟩
      | false =>
        rw [h.2 hns]
        exact ⟨armed, harm, fun rest h => h⟩
  · split
    · -- operational observation
      unfold reconcileOperational
      simp only
      split
      · rename_i hcand
        have hst : st.persisted.state = "incident" := by
          apply hasStarted_of_invariant _ hinv
          simp only [Bool.and_eq_true] at hcand
          exact hcand.1
        have ha : armed = true := harm hst
        split
        · refine ⟨false, fun h => absurd h operational_ne_incident, fun rest h => ?_⟩
          subst ha
          simpa [resolvesPaired, resolveMessage] using h
        · exact ⟨armed, harm, fun rest h => h⟩
      · split
        · exact ⟨armed, fun h => absurd h operational_ne_incident, fun rest h => h⟩
        · exact ⟨armed, harm, fun rest h => h⟩
    · -- unknown observation
      refine ⟨armed, ?_, fun rest h => h⟩
      unfold reconcileUnknown
      simp only
      intro h
      apply harm
      by_contra hs
      split at h
      · rename_i hc
        exact hs hc.1
      · have h2 : (readBack
            { state := st.persisted.state, startedAt := st.persisted.startedAt,
              lastNonIncidentTs := now, incidentId := st.persisted.incidentId }).state
            = "incident" := h
        exact hs ((readBack_state_eq_incident _).mp h2)

theorem runSingle_paired (env : Env) (cfg : Config) (svc : Service)
    (steps : List (Observation × Int)) (st : Store) (armed : Bool)
    (hinv : RecordInvariant st.persisted)
    (harm : st.persisted.state = "incident" → armed = true) :
    resolvesPaired armed (allSent (runSingle env cfg svc steps st)) = true := by
  induction steps generalizing st armed with
  | nil => rfl
  | cons x rest ih =>
    obtain ⟨o, t⟩ := x
    obtain ⟨armed2, h1, h2⟩ := reconcile_paired env cfg svc o t st armed hinv harm
    have h3 := ih (reconcile env cfg svc o t st).store armed2
      (reconcile_invariant env cfg svc o t st hinv) h1
    simp only [runSingle]
    rw [allSent_cons _ (runSingle env cfg svc rest (reconcile env cfg svc o t st).store).1,
      allSent_eta]
    exact h2 _ h3

/-- C28: in every run of single-incident reconcile steps of one service that
starts from the default persisted record with no suppression record, every
resolve notification in the trace of sent messages is preceded by a start
notification with no other resolve notification in between. -/
theorem resolve_preceded_by_start (env : Env) (cfg : Config) (svc : Service)
    (steps : List (Observation × Int)) (pre : List Notification) (r : Notification)
    (post : List Notification)
    (htrace : allSent (runSingle env cfg svc steps freshStore) = pre ++ r :: post)
    (hr : r.direction = Direction.resolve) :
    ∃ a s b, pre = a ++ s :: b ∧ s.direction = Direction.start ∧
      ∀ m ∈ b, m.direction ≠ Direction.resolve := by
  have hp := runSingle_paired env cfg svc steps freshStore false recordInvariant_default
    (fun h => absurd h (by decide))
  rcases resolvesPaired_split _ false pre r post hp htrace hr with h | ⟨a, s, ha, hs⟩
  · exact absurd h.2 (by decide)
  · exact ⟨a, s, [], ha, hs, fun m hm => absurd hm (List.not_mem_nil m)⟩

/-- C28 applied to incident `T0` followed by an operational reading. -/
theorem resolve_preceded_by_start_witness :
    ∃ a s b, [startMessage sampleEnv firebase obsT0 defaultState 200000] = a ++ s :: b ∧
      s.direction = Direction.start ∧ ∀ m ∈ b, m.direction ≠ Direction.resolve :=
  resolve_preceded_by_start sampleEnv {} firebase [(obsT0, 200000), (obsOperational, 400000)]
    [startMessage sampleEnv firebase obsT0 defaultState 200000]
    (resolveMessage sampleEnv firebase
      (runSingle sampleEnv {} firebase [(obsT0, 200000)] freshStore).1.persisted 400000)
    [] (by decide) (by decide)

/-! ## The resolve loop of the multi-incident branch -/

theorem mem_setOf (k : String) (l : List String) : k ∈ setOf l ↔ k ∈ l := by
  induction l with
  | nil => simp [setOf]
  | cons x xs ih =>
    simp only [setOf, List.mem_cons, List.mem_filter, ih, bne_iff_ne, ne_eq]
    constructor
    · rintro (h | ⟨h, _⟩)
      · exact Or.inl h
      · exact Or.inr h
    · rintro (h | h)
      · exact Or.inl h
      · by_cases hk : k = x
        · exact Or.inl hk
        · exact Or.inr ⟨h, hk⟩

theorem notSuppressed_congr (st st2 : Store) (key v : String) (now : Int)
    (h1 : st2.sig key = st.sig key) (h2 : st2.notifyTs key = st.notifyTs key) :
    notSuppressed st2 key v now = notSuppressed st key v now := by
  simp only [notSuppressed, h1, h2]

theorem countFor_eq_zero_of_all_start (k : String) (l : List Notification)
    (h : ∀ m ∈ l, m.direction = Direction.start) :
    countFor Direction.resolve k l = 0 := by
  simp only [countFor, List.length_eq_zero, List.filter_eq_nil_iff, decide_eq_true_eq]
  intro m hm hc
  rw [h m hm] at hc
  exact absurd hc.1 (by decide)

theorem truthy_eq_some {x : Option String} (h : truthy x = true) : x = some (orEmpty x) := by
  cases x with
  | none => exact absurd h truthy_none_ne_true
  | some s => rfl

theorem startStep_nowActiveKeys (env : Env) (svc : Service) (p : PersistedState) (now : Int)
    (acc : CycleAcc) (inc : RawIncident) (k : String) :
    k ∈ (startStep env svc p now acc inc).nowActiveKeys ↔
      k ∈ acc.nowActiveKeys ∨
        (truthy (incidentStartKey env inc) = true ∧ incidentStartKey env inc = some k) := by
  have hact : ∀ ht : truthy (incidentStartKey env inc) = true,
      (k ∈ (if orEmpty (incidentStartKey env inc) ∈ acc.nowActiveKeys then acc.nowActiveKeys
          else acc.nowActiveKeys ++ [orEmpty (incidentStartKey env inc)]) ↔
        k ∈ acc.nowActiveKeys ∨
          (truthy (incidentStartKey env inc) = true ∧ incidentStartKey env inc = some k)) := by
    intro ht
    have hs := truthy_eq_some ht
    have hk : incidentStartKey env inc = some k ↔ k = orEmpty (incidentStartKey env inc) := by
      constructor
      · intro h
        rw [h]
        rfl
      · intro h
        rw [h]
        exact hs
    simp only [ht, true_and, hk]
    split
    · rename_i hmem
      constructor
      · intro h
        exact Or.inl h
      · rintro (h | h)
        · exact h
        · rw [h]
          exact hmem
    · simp [List.mem_append]
  unfold startStep
  simp only
  split
  · rename_i hf
    simp [hf]
  · rename_i hf
    have ht : truthy (incidentStartKey env inc) = true := by
      cases h : truthy (incidentStartKey env inc) with
      | true => rfl
      | false => exact absurd h hf
    split
    · exact hact ht
    · split
      · exact hact ht
      · exact hact ht

theorem foldl_startStep_nowActiveKeys (env : Env) (svc : Service) (p : PersistedState)
    (now : Int) (incs : List RawIncident) (acc : CycleAcc) (k : String) :
    k ∈ (incs.foldl (startStep env svc p now) acc).nowActiveKeys ↔
      k ∈ acc.nowActiveKeys ∨
        ∃ inc ∈ incs, truthy (incidentStartKey env inc) = true ∧
          incidentStartKey env inc = some k := by
  induction incs generalizing acc with
  | nil => simp
  | cons i rest ih =>
    simp only [List.foldl_cons, ih, startStep_nowActiveKeys, List.mem_cons, exists_eq_or_imp,
      or_assoc]

theorem mem_activeKeys (env : Env) (incidents : List RawIncident) (k : String) :
    k ∈ activeKeys env incidents ↔
      ∃ inc ∈ incidents.filter isActive, truthy (incidentStartKey env inc) = true ∧
        incidentStartKey env inc = some k := by
  simp only [activeKeys, List.mem_filterMap]
  constructor
  · rintro ⟨inc, hm, h⟩
    refine ⟨inc, hm, ?_⟩
    by_cases ht : truthy (incidentStartKey env inc) = true
    · rw [if_pos ht] at h
      exact ⟨ht, h⟩
    · rw [if_neg ht] at h
      exact absurd h (by simp)
  · rintro ⟨inc, hm, ht, h⟩
    exact ⟨inc, hm, by rw [if_pos ht]; exact h⟩

/-- The start loop sends start messages only and leaves every resolve record
of the suppression store as it was. -/
theorem startStep_resolve_untouched (env : Env) (svc : Service) (p : PersistedState)
    (now : Int) (st : Store) (acc : CycleAcc) (inc : RawIncident)
    (h : (∀ k, acc.store.sig (sigKeyFor (getDedupeKey svc) Direction.resolve k)
          = st.sig (sigKeyFor (getDedupeKey svc) Direction.resolve k) ∧
        acc.store.notifyTs (sigKeyFor (getDedupeKey svc) Direction.resolve k)
          = st.notifyTs (sigKeyFor (getDedupeKey svc) Direction.resolve k)) ∧
      ∀ m ∈ acc.sent, m.direction = Direction.start) :
    (∀ k, (startStep env svc p now acc inc).store.sig
          (sigKeyFor (getDedupeKey svc) Direction.resolve k)
          = st.sig (sigKeyFor (getDedupeKey svc) Direction.resolve k) ∧
        (startStep env svc p now acc inc).store.notifyTs
          (sigKeyFor (getDedupeKey svc) Direction.resolve k)
          = st.notifyTs (sigKeyFor (getDedupeKey svc) Direction.resolve k)) ∧
      ∀ m ∈ (startStep env svc p now acc inc).sent, m.direction = Direction.start := by
  unfold startStep
  simp only
  split
  · exact h
  · split
    · exact h
    · split
      · constructor
        · intro k
          have hne : sigKeyFor (getDedupeKey svc) Direction.resolve k
              ≠ getDedupeKey svc ++ ":start:" ++ orEmpty (incidentStartKey env inc) := by
            intro he
            have := sigKeyFor_injective (getDedupeKey svc) Direction.resolve Direction.start k
              (orEmpty (incidentStartKey env inc)) he
            exact absurd this.1 (by decide)
          simp only [setPersistedState, setLastSignature, setLastNotifiedTs, if_neg hne]
          exact h.1 k
        · intro m hm
          rcases List.mem_append.mp hm with h1 | h1
          · exact h.2 m h1
          · rw [List.mem_singleton.mp h1]
      · exact h

theorem foldl_startStep_resolve_untouched (env : Env) (svc : Service) (p : PersistedState)
    (now : Int) (st : Store) (incs : List RawIncident) (acc : CycleAcc)
    (h : (∀ k, acc.store.sig (sigKeyFor (getDedupeKey svc) Direction.resolve k)
          = st.sig (sigKeyFor (getDedupeKey svc) Direction.resolve k) ∧
        acc.store.notifyTs (sigKeyFor (getDedupeKey svc) Direction.resolve k)
          = st.notifyTs (sigKeyFor (getDedupeKey svc) Direction.resolve k)) ∧
      ∀ m ∈ acc.sent, m.direction = Direction.start) :
    (∀ k, (incs.foldl (startStep env svc p now) acc).store.sig
          (sigKeyFor (getDedupeKey svc) Direction.resolve k)
          = st.sig (sigKeyFor (getDedupeKey svc) Direction.resolve k) ∧
        (incs.foldl (startStep env svc p now) acc).store.notifyTs
          (sigKeyFor (getDedupeKey svc) Direction.resolve k)
          = st.notifyTs (sigKeyFor (getDedupeKey svc) Direction.resolve k)) ∧
      ∀ m ∈ (incs.foldl (startStep env svc p now) acc).sent, m.direction = Direction.start := by
  induction incs generalizing acc with
  | nil => exact h
  | cons i rest ih => exact ih _ (startStep_resolve_untouched env svc p now st acc i h)

/-- The resolve loop starts with its invariant. -/
theorem resolveLoopInv_init (env : Env) (svc : Service) (incidents : List RawIncident)
    (now : Int) (st : Store) :
    ResolveLoopInv env svc incidents now st []
      ((incidents.filter isActive).foldl (startStep env svc st.persisted now)
        { store := st, sent := [], nowActiveKeys := [] }) := by
  have hu := foldl_startStep_resolve_untouched env svc st.persisted now st
    (incidents.filter isActive) { store := st, sent := [], nowActiveKeys := [] }
    ⟨fun _ => ⟨rfl, rfl⟩, fun m hm => absurd hm (List.not_mem_nil m)⟩
  have hz : ∀ k, countFor Direction.resolve k
      ((incidents.filter isActive).foldl (startStep env svc st.persisted now)
        { store := st, sent := [], nowActiveKeys := [] }).sent = 0 :=
    fun k => countFor_eq_zero_of_all_start k _ hu.2
  refine ⟨?_, ?_, ?_, ?_, ?_⟩
  · intro k
    rw [foldl_startStep_nowActiveKeys, mem_activeKeys]
    simp
  · intro k
    rw [hz k]
    refine ⟨Nat.zero_le 1, ?_⟩
    constructor
    · intro h
      exact absurd h (by decide)
    · intro h
      exact absurd h.1 (List.not_mem_nil k)
  · intro k _
    exact hu.1 k
  · intro k h
    rw [hz k] at h
    exact absurd h (by decide)
  · intro m hm hd
    rw [hu.2 m hm] at hd
    exact absurd hd (by decide)

theorem resolveStep_inv (env : Env) (svc : Service) (incidents : List RawIncident)
    (now : Int) (st : Store) (done : List String) (acc : CycleAcc) (x : String)
    (hinv : ResolveLoopInv env svc incidents now st done acc) :
    ResolveLoopInv env svc incidents now st (done ++ [x])
      (resolveStep env svc st.persisted now acc x) := by
  obtain ⟨hA, hC, hU, hS, hM⟩ := hinv
  have hmem : ∀ k, k ≠ x → (k ∈ done ++ [x] ↔ k ∈ done) := by
    intro k hk
    simp [List.mem_append, hk]
  -- the outcome when nothing is sent for `x`
  have hskip : (countFor Direction.resolve x acc.sent = 1 ↔
        (x ∉ activeKeys env incidents ∧ x ∉ st.persisted.notifiedResolveKeys ∧
          notSuppressed st (sigKeyFor (getDedupeKey svc) Direction.resolve x)
            (sigValFor Direction.resolve x) now = true)) →
      ResolveLoopInv env svc incidents now st (done ++ [x]) acc := by
    intro hx
    refine ⟨hA, ?_, hU, hS, hM⟩
    intro k
    refine ⟨(hC k).1, ?_⟩
    by_cases hk : k = x
    · subst hk
      rw [hx]
      simp [List.mem_append]
    · rw [(hC k).2, hmem k hk]
  unfold resolveStep
  simp only
  split
  · -- active or already resolved
    rename_i hsk
    apply hskip
    constructor
    · intro h1
      have h2 := ((hC x).2.mp h1).2
      rcases hsk with h | h
      · exact absurd ((hA x).mp h) h2.1
      · exact absurd ((mem_setOf x _).mp h) h2.2.1
    · intro h2
      rcases hsk with h | h
      · exact absurd ((hA x).mp h) h2.1
      · exact absurd ((mem_setOf x _).mp h) h2.2.1
  · rename_i hsk
    have hnA : x ∉ activeKeys env incidents := fun h => hsk (Or.inl ((hA x).mpr h))
    have hnR : x ∉ st.persisted.notifiedResolveKeys :=
      fun h => hsk (Or.inr ((mem_setOf x _).mpr h))
    have hkey : getDedupeKey svc ++ ":resolve:" ++ x
        = sigKeyFor (getDedupeKey svc) Direction.resolve x := rfl
    have hval : "resolve:" ++ x = sigValFor Direction.resolve x := rfl
    cases hns : notSuppressed acc.store (getDedupeKey svc ++ ":resolve:" ++ x)
      ("resolve:" ++ x) now with
    | false =>
      simp only [Bool.false_eq_true, if_false]
      apply hskip
      by_cases hc : countFor Direction.resolve x acc.sent = 1
      · exact ⟨fun _ => ((hC x).2.mp hc).2, fun _ => hc⟩
      · have hc0 : countFor Direction.resolve x acc.sent = 0 := by
          have := (hC x).1
          omega
        have hu := hU x hc0
        have hsame := notSuppressed_congr st acc.store _ (sigValFor Direction.resolve x) now
          hu.1 hu.2
        rw [← hkey, ← hval, hns] at hsame
        constructor
        · intro h
          exact absurd h hc
        · intro h
          rw [← hkey, ← hval, ← hsame] at h
          exact absurd h.2.2 (by decide)
    | true =>
      simp only [if_true]
      have hc0 : countFor Direction.resolve x acc.sent = 0 := by
        by_contra hne
        have hc1 : countFor Direction.resolve x acc.sent = 1 := by
          have := (hC x).1
          omega
        exact notSuppressed_sig_ne hns (hS x hc1)
      have hu := hU x hc0
      have hs0 : notSuppressed st (sigKeyFor (getDedupeKey svc) Direction.resolve x)
          (sigValFor Direction.resolve x) now = true := by
        rw [← notSuppressed_congr st acc.store _ _ now hu.1 hu.2, ← hkey, ← hval]
        exact hns
      have hcount : ∀ (k text : String), countFor Direction.resolve k
          (acc.sent ++ [{ direction := Direction.resolve, identity := some x, text := text }])
          = countFor Direction.resolve k acc.sent + (if x = k then 1 else 0) := by
        intro k text
        rw [countFor_append]
        simp only [countFor_single, true_and]
      refine ⟨hA, ?_, ?_, ?_, ?_⟩
      · intro k
        simp only [hcount]
        by_cases hk : x = k
        · subst hk
          simp only [hc0, if_true]
          refine ⟨Nat.le_refl _, ?_⟩
          constructor
          · intro _
            exact ⟨by simp, hnA, hnR, hs0⟩
          · intro _
            trivial
        · have hk2 : k ≠ x := fun h => hk h.symm
          simp only [hk, if_false, Nat.add_zero]
          refine ⟨(hC k).1, ?_⟩
          rw [(hC k).2, hmem k hk2]
      · intro k hk0
        have hk0b := hk0
        simp only [hcount] at hk0b
        have hk : x ≠ k := by
          intro h
          rw [if_pos h] at hk0b
          omega
        rw [if_neg hk] at hk0b
        have hne : sigKeyFor (getDedupeKey svc) Direction.resolve k
            ≠ getDedupeKey svc ++ ":resolve:" ++ x := by
          intro he
          rw [hkey] at he
          exact hk (sigKeyFor_injective _ _ _ _ _ he).2.symm
        simp only [setPersistedState, setLastSignature, setLastNotifiedTs, if_neg hne]
        exact hU k (by omega)
      · intro k hk1
        have hk1b := hk1
        simp only [hcount] at hk1b
        by_cases hk : x = k
        · subst hk
          simp [setPersistedState, setLastSignature, sigKeyFor, sigValFor]
        · rw [if_neg hk] at hk1b
          have hne : sigKeyFor (getDedupeKey svc) Direction.resolve k
              ≠ getDedupeKey svc ++ ":resolve:" ++ x := by
            intro he
            rw [hkey] at he
            exact hk (sigKeyFor_injective _ _ _ _ _ he).2.symm
          simp only [setPersistedState, setLastSignature, if_neg hne]
          exact hS k (by omega)
      · intro m hm hd k hid
        rcases List.mem_append.mp hm with h1 | h1
        · exact hM m h1 hd k hid
        · have hmx := List.mem_singleton.mp h1
          rw [hmx] at hid ⊢
          have : x = k := Option.some.inj hid
          rw [this]
          rfl

theorem foldl_resolveStep_inv (env : Env) (svc : Service) (incidents : List RawIncident)
    (now : Int) (st : Store) (ks : List String) (done : List String) (acc : CycleAcc)
    (hinv : ResolveLoopInv env svc incidents now st done acc) :
    ResolveLoopInv env svc incidents now st (done ++ ks)
      (ks.foldl (resolveStep env svc st.persisted now) acc) := by
  induction ks generalizing done acc with
  | nil => simpa using hinv
  | cons x rest ih =>
    have h := ih (done ++ [x]) _ (resolveStep_inv env svc incidents now st done acc x hinv)
    simpa [List.append_assoc] using h

/-- C23: in a multi-incident cycle a resolve notification for start key `k` is
sent (once) exactly when `k` is in the `notifiedStartKeys` read at the
beginning of the cycle, `k` is not the start key of an incident that is still
active, `k` is not in `notifiedResolveKeys` (these three make the attempt) and
the attempt is not suppressed; its text uses the title cached in
`startKeyToTitle` for `k`, or `Incident` when none is cached. -/
theorem resolve_sent_iff_attempted_and_not_suppressed (env : Env) (svc : Service)
    (incidents : List RawIncident) (now : Int) (st : Store) (k : String) :
    countFor Direction.resolve k (reconcileMulti env svc incidents now st).sent ≤ 1 ∧
    (countFor Direction.resolve k (reconcileMulti env svc incidents now st).sent = 1 ↔
      resolveAttempted env incidents st.persisted k ∧
        notSuppressed st (getDedupeKey svc ++ ":resolve:" ++ k) ("resolve:" ++ k) now = true) ∧
    (∀ m ∈ (reconcileMulti env svc incidents now st).sent,
      m.direction = Direction.resolve → m.identity = some k →
        m = resolveMessageMulti env svc st.persisted now k ∧
        m.text = resolveTextMulti svc
          (orEmpty (orElse (mapGet st.persisted.startKeyToTitle k) (some "Incident")))
          (if truthy (orNull (mapGet st.persisted.startKeyToStartedAt k)) then
            env.toLocaleString (orEmpty (orNull (mapGet st.persisted.startKeyToStartedAt k)))
          else "")
          (env.nowLocaleString now)) := by
  have h := foldl_resolveStep_inv env svc incidents now st st.persisted.notifiedStartKeys []
    _ (resolveLoopInv_init env svc incidents now st)
  simp only [List.nil_append] at h
  obtain ⟨_, hC, _, _, hM⟩ := h
  refine ⟨(hC k).1, ?_, ?_⟩
  · refine Iff.trans (hC k).2 ?_
    simp only [resolveAttempted, and_assoc]
    exact Iff.rfl
  · intro m hm hd hid
    have := hM m hm hd k hid
    exact ⟨this, by rw [this]; rfl⟩

/-- C23 applied to the third cycle of scenario C, where B has disappeared. -/
theorem resolve_sent_iff_attempted_and_not_suppressed_witness :
    countFor Direction.resolve "ts:2000"
      (reconcileMulti sampleEnv sentry [] 800000
        (runMulti sampleEnv sentry (scenarioCCycles.take 2) freshStore).1).sent = 1 :=
  (resolve_sent_iff_attempted_and_not_suppressed sampleEnv sentry [] 800000
    (runMulti sampleEnv sentry (scenarioCCycles.take 2) freshStore).1 "ts:2000").2.1.mpr
    ⟨⟨by decide, by decide, by decide⟩, by decide⟩

/-- C30 applied to the default site address and the two Google Play services. -/
theorem dedupe_key_shared_by_play_services_witness :
    ("Google Play Services", "https://status.play.google.com")
        ∈ serviceKeys "https://3rd-party-services.netlify.app" ∧
      ("Google Play Store" = "Google Play Services" ∨
        ("Google Play Store" = "Google Play Store" ∧
          "Google Play Services" = "Google Play Services") ∨
        ("Google Play Store" = "Google Play Services" ∧
          "Google Play Services" = "Google Play Store")) :=
  have h := dedupe_key_shared_by_play_services "https://3rd-party-services.netlify.app"
  ⟨h.2.2.2.2.1,
    h.1 ("Google Play Store", "https://status.play.google.com") h.2.2.2.1
      ("Google Play Services", "https://status.play.google.com") h.2.2.2.2.1 rfl⟩

end ServiceStatus
